import Mathlib

/-! Bounded-retry middleware of the query frontend.

A shallow embedding of `pkg/querier/frontend/queryrange/retry.go`.

The Go method `retry.Do` is stateful: it calls the wrapped handler, a logger and a
process-wide histogram.  The embedding passes an explicit `World` through the loop.  The
world holds the private state of the three collaborators and a trace of every external call
that `Do` makes, in the order in which it makes them.
-/

namespace queryrange

/-! ## Errors and the httpgrpc convention -/

/-- Modelled from the spec: the `HTTPResponse` message of the `httpgrpc` library (a
dependency, not part of the source file): a numeric status code and a body.  The Go field
`Code` is an `int32`; it is an unbounded integer here, no arithmetic on it can overflow. -/
structure HTTPResponse where
  Code : Int
  Body : String
deriving DecidableEq, Repr

/-- Modelled from the spec: a Go `error` value as the retry loop can observe it.  It is
either *coded* (it carries an `HTTPResponse`) or *uncoded* (any other error).  The Go `nil`
error is `none : Option Error`. -/
inductive Error where
  | uncoded (msg : String)
  | coded (resp : HTTPResponse)
deriving DecidableEq, Repr

/-- Modelled from the spec: `httpgrpc.HTTPResponseFromError`, the extract-code-or-report-absent
query.  Go returns `(resp, ok)`; `some resp` stands for `(resp, true)` and `none` for
`(nil, false)`. -/
def httpgrpc.HTTPResponseFromError : Error → Option HTTPResponse
  | .uncoded _ => none
  | .coded resp => some resp

/-- Modelled from the spec: `httpgrpc.Errorf(code, format, args...)` with the format already
applied: the coded error with that status code and that message as its body. -/
def httpgrpc.Errorf (code : Int) (msg : String) : Error :=
  .coded { Code := code, Body := msg }

/-- The constant `http.StatusInternalServerError`. -/
def http.StatusInternalServerError : Int := 500

/-! ## Collaborators -/

/-- A value of a key/value log line. -/
inductive Value where
  | str (s : String)
  | int (n : Int)
  | err (e : Error)
deriving DecidableEq, Repr

/-- The pair `(*APIResponse, error)` returned by a handler; either component may be nil. -/
abbrev Result (Resp : Type) := Option Resp × Option Error

/-- The `Handler` interface: `Do(ctx, req) (*APIResponse, error)`.  A handler has a private
state of type `η`, which a call may read and change. -/
def Handler (Ctx Req Resp η : Type) := Ctx → Req → η → Result Resp × η

/-- The `log.Logger` interface: `Log(keyvals...) error`, with private state `ℓ`. -/
def Logger (ℓ : Type) := List Value → ℓ → Option Error × ℓ

/-- The `Observe` method of a histogram with private state `μ`.  The source passes
`float64(tries)`; the embedding passes the integer `tries` itself. -/
def Histogram (μ : Type) := Int → μ → μ

/-- The function `level.Error`: a logger that puts the pair `level=error` in front of the
key/values it is given. -/
def level.Error {ℓ : Type} (logger : Logger ℓ) : Logger ℓ :=
  fun keyvals => logger (Value.str "level" :: Value.str "error" :: keyvals)

/-- One external call made by `retry.Do`. -/
inductive Event (Ctx Req Resp : Type) where
  /-- The call `retries.Observe(float64(tries))`. -/
  | Observe (tries : Int)
  /-- The call `r.next.Do(ctx, req)` together with what it returned. -/
  | Do (ctx : Ctx) (req : Req) (resp : Option Resp) (err : Option Error)
  /-- The call `Log(keyvals...)` as the logger `r.log` receives it. -/
  | Log (keyvals : List Value)
  /-- The call `httpgrpc.Errorf(code, ...)` with its formatted message. -/
  | Errorf (code : Int) (msg : String)

/-- The state that `retry.Do` runs in: the private states of the wrapped handler, of the
logger and of the histogram `retries`, and the trace of external calls made so far. -/
structure World (Ctx Req Resp η ℓ μ : Type) where
  next : η
  log : ℓ
  retries : μ
  trace : List (Event Ctx Req Resp)

/-- The struct `retry`. -/
structure retry (Ctx Req Resp η ℓ : Type) where
  log : Logger ℓ
  next : Handler Ctx Req Resp η
  maxRetries : Int

/-- The function `NewRetryMiddleware`: given the next handler, the decorated handler. -/
def NewRetryMiddleware {Ctx Req Resp η ℓ : Type} (log : Logger ℓ) (maxRetries : Int)
    (next : Handler Ctx Req Resp η) : retry Ctx Req Resp η ℓ :=
  { log := log, next := next, maxRetries := maxRetries }

/-- The condition `!ok || (ok && httpResp.Code/100 == 5)` that `retry.Do` evaluates on
`httpResp, ok := httpgrpc.HTTPResponseFromError(err)`.  Go divides integers truncating
towards zero, which is `Int.tdiv`. -/
def retryable (err : Error) : Bool :=
  match httpgrpc.HTTPResponseFromError err with
  | none => true
  | some httpResp => httpResp.Code.tdiv 100 == 5

section Do

variable {Ctx Req Resp η ℓ μ : Type}

/-- The statement `retries.Observe(float64(tries))`. -/
def World.Observe (retries : Histogram μ) (tries : Int) (w : World Ctx Req Resp η ℓ μ) :
    World Ctx Req Resp η ℓ μ :=
  { w with retries := retries tries w.retries, trace := w.trace ++ [Event.Observe tries] }

/-- The statement `resp, err := r.next.Do(ctx, req)`. -/
def World.Do (next : Handler Ctx Req Resp η) (ctx : Ctx) (req : Req)
    (w : World Ctx Req Resp η ℓ μ) : Result Resp × World Ctx Req Resp η ℓ μ :=
  let out := next ctx req w.next
  (out.1, { w with next := out.2, trace := w.trace ++ [Event.Do ctx req out.1.1 out.1.2] })

/-- The statement `level.Error(r.log).Log(keyvals...)`; the error that `Log` returns is
dropped, as in the source. -/
def World.Log (log : Logger ℓ) (keyvals : List Value) (w : World Ctx Req Resp η ℓ μ) :
    World Ctx Req Resp η ℓ μ :=
  { w with
    log := (level.Error log keyvals w.log).2,
    trace := w.trace ++ [Event.Log (Value.str "level" :: Value.str "error" :: keyvals)] }

/-- The loop of `retry.Do` from the test `tries < r.maxRetries` onwards, and the code after
the loop.  `tries` and `lastErr` are the two local variables. -/
def retry.loop (retries : Histogram μ) (r : retry Ctx Req Resp η ℓ) (ctx : Ctx) (req : Req)
    (tries : Int) (lastErr : Option Error) (w : World Ctx Req Resp η ℓ μ) :
    Result Resp × World Ctx Req Resp η ℓ μ :=
  if tries < r.maxRetries then
    let w1 := w.Observe retries tries
    let (out, w2) := w1.Do r.next ctx req
    match out.2 with
    | none => ((out.1, none), w2)
    | some err =>
      -- Retry is we get a HTTP 500 or a non-HTTP error.
      if retryable err then
        let w3 := w2.Log r.log
          [Value.str "msg", Value.str "error processing request",
           Value.str "try", Value.int tries, Value.str "err", Value.err err]
        retry.loop retries r ctx req (tries + 1) (some err) w3
      else
        ((none, some err), w2)
  else
    match lastErr with
    | some err => ((none, some err), w)
    | none =>
      let msg := "Query failed after " ++ toString r.maxRetries ++ " retries."
      ((none, some (httpgrpc.Errorf http.StatusInternalServerError msg)),
        { w with trace := w.trace ++ [Event.Errorf http.StatusInternalServerError msg] })
termination_by (r.maxRetries - tries).toNat
decreasing_by omega

/-- The method `retry.Do`. -/
def retry.Do (retries : Histogram μ) (r : retry Ctx Req Resp η ℓ) (ctx : Ctx) (req : Req)
    (w : World Ctx Req Resp η ℓ μ) : Result Resp × World Ctx Req Resp η ℓ μ :=
  retry.loop retries r ctx req 0 none w

/-- The events that one invocation of `retry.Do` adds to the trace. -/
def retry.events (retries : Histogram μ) (r : retry Ctx Req Resp η ℓ) (ctx : Ctx) (req : Req)
    (w : World Ctx Req Resp η ℓ μ) : List (Event Ctx Req Resp) :=
  (r.Do retries ctx req w).2.trace.drop w.trace.length

/-- The decorator obtained by wrapping `next` first with `NewRetryMiddleware(log, M)` and
then with `NewRetryMiddleware(log2, N)`: the handler of the outer decorator is the method
`Do` of the inner one, and its state is the world of the inner one. -/
def wrapTwice {ℓ2 : Type} (log2 : Logger ℓ2) (N : Int) (retries : Histogram μ)
    (log : Logger ℓ) (M : Int) (next : Handler Ctx Req Resp η) :
    retry Ctx Req Resp (World Ctx Req Resp η ℓ μ) ℓ2 :=
  NewRetryMiddleware log2 N ((NewRetryMiddleware log M next).Do retries)

end Do

/-! ## Reading a trace and a handler -/

section Observations

variable {Ctx Req Resp η ℓ μ : Type}

/-- The handler call recorded by an event, if it is one: context, request and result. -/
def Event.call? : Event Ctx Req Resp → Option (Ctx × Req × Result Resp)
  | .Do ctx req resp err => some (ctx, req, (resp, err))
  | _ => none

/-- The calls to the wrapped handler recorded in a trace, in order. -/
def callsOf (t : List (Event Ctx Req Resp)) : List (Ctx × Req × Result Resp) :=
  t.filterMap Event.call?

/-- The state of a handler after `n` calls with the same context and request. -/
def Handler.stateAfter (next : Handler Ctx Req Resp η) (ctx : Ctx) (req : Req) : Nat → η → η
  | 0, s => s
  | n + 1, s => Handler.stateAfter next ctx req n (next ctx req s).2

/-- The result of call number `i` (counted from 0) of a handler that starts in state `s`
and is called again and again with the same context and request. -/
def Handler.outcome (next : Handler Ctx Req Resp η) (ctx : Ctx) (req : Req) (s : η)
    (i : Nat) : Result Resp :=
  (next ctx req (Handler.stateAfter next ctx req i s)).1

/-- A handler result that makes the loop go round again: a non-nil retryable error. -/
def retryableFailure (o : Result Resp) : Bool :=
  match o.2 with
  | some err => retryable err
  | none => false

/-- What `retry.Do` returns when the result `o` of a handler call ends the invocation. -/
def resultOf (o : Result Resp) : Result Resp :=
  match o.2 with
  | none => (o.1, none)
  | some err => (none, some err)

/-- The number of handler calls of a loop with `n` iterations left, read off the results
`o 0, o 1, ...` that the handler is going to give. -/
def callsMade (o : Nat → Result Resp) : Nat → Nat
  | 0 => 0
  | n + 1 => if retryableFailure (o 0) then callsMade (fun i => o (i + 1)) n + 1 else 1

/-- The key/values of the line that the loop logs in iteration `tries` for the error `err`,
as the logger receives them. -/
def logLine (tries : Int) (err : Error) : List Value :=
  [Value.str "level", Value.str "error", Value.str "msg", Value.str "error processing request",
   Value.str "try", Value.int tries, Value.str "err", Value.err err]

/-- The events of one iteration with loop counter `tries` whose handler call returns `o`. -/
def attemptEvents (ctx : Ctx) (req : Req) (tries : Int) (o : Result Resp) :
    List (Event Ctx Req Resp) :=
  [Event.Observe tries, Event.Do ctx req o.1 o.2] ++
    (match o.2 with
     | some err => if retryable err then [Event.Log (logLine tries err)] else []
     | none => [])

/-- The events of `c` successive iterations that start with loop counter `tries`. -/
def iterationEvents (ctx : Ctx) (req : Req) (tries : Int) (o : Nat → Result Resp) :
    Nat → List (Event Ctx Req Resp)
  | 0 => []
  | c + 1 => attemptEvents ctx req tries (o 0) ++
      iterationEvents ctx req (tries + 1) (fun i => o (i + 1)) c

/-- The error that `httpgrpc.Errorf` builds after the loop. -/
def exhausted (maxRetries : Int) : Error :=
  httpgrpc.Errorf 500 ("Query failed after " ++ toString maxRetries ++ " retries.")

/-- What the invocation returns after `c` handler calls with results `o 0, ..., o (c-1)`,
when `lastErr` held `lastErr` before the first of them. -/
def finalResult (maxRetries : Int) (lastErr : Option Error) (o : Nat → Result Resp) :
    Nat → Result Resp
  | 0 => (none, some (lastErr.getD (exhausted maxRetries)))
  | c + 1 => resultOf (o c)

/-- The events after the last iteration: the call of `httpgrpc.Errorf`, if it is made. -/
def finalEvents (maxRetries : Int) (lastErr : Option Error) (c : Nat) :
    List (Event Ctx Req Resp) :=
  if c = 0 ∧ lastErr = none then
    [Event.Errorf 500 ("Query failed after " ++ toString maxRetries ++ " retries.")]
  else []

/-- Two errors of which one is uncoded and the other is coded with a code whose quotient
by 100 is 5. -/
def swapsCoding : Error → Error → Bool
  | .uncoded _, .coded resp => resp.Code.tdiv 100 == 5
  | .coded resp, .uncoded _ => resp.Code.tdiv 100 == 5
  | _, _ => false

/-- Two handler results that agree, except that a failure which is uncoded in one may be a
coded 5xx error in the other. -/
def sameUpToCoding (a b : Result Resp) : Prop :=
  a = b ∨ (a.1 = b.1 ∧ ∃ ea eb, a.2 = some ea ∧ b.2 = some eb ∧ swapsCoding ea eb = true)

/-- The value passed to the histogram by an event, if it is an observation. -/
def Event.observation? : Event Ctx Req Resp → Option Int
  | .Observe tries => some tries
  | _ => none

/-- The observations recorded in a trace, in order. -/
def observationsOf (t : List (Event Ctx Req Resp)) : List Int :=
  t.filterMap Event.observation?

/-- The key/values received by the logger in an event, if it is a log call. -/
def Event.log? : Event Ctx Req Resp → Option (List Value)
  | .Log keyvals => some keyvals
  | _ => none

/-- The log lines recorded in a trace, in order. -/
def logsOf (t : List (Event Ctx Req Resp)) : List (List Value) :=
  t.filterMap Event.log?

/-- Whether an event is an observation or a handler call. -/
def Event.isObserveOrDo : Event Ctx Req Resp → Bool
  | .Observe _ => true
  | .Do _ _ _ _ => true
  | _ => false

/-- The log line that goes with a handler call number `tries` that returned `o`: one line with
the index and the error if `o` is a failure with a retryable error, none otherwise. -/
def retryLog (tries : Int) (o : Result Resp) : Option (List Value) :=
  match o.2 with
  | some err => if retryable err then some (logLine tries err) else none
  | none => none

end Observations

/-! ## Example collaborators -/

/-- A handler that replays a list of results, one per call, and then keeps giving `last`;
its state is the number of calls received so far. -/
def scripted (script : List (Result String)) (last : Result String) :
    Handler Unit String String Nat :=
  fun _ _ n => (script.getD n last, n + 1)

/-- A logger that stores nothing and reports no error. -/
def nopLogger : Logger Unit := fun _ s => (none, s)

/-- A histogram that stores nothing. -/
def nopHistogram : Histogram Unit := fun _ s => s

/-- A world in which nothing has happened yet. -/
def emptyWorld : World Unit String String Nat Unit Unit :=
  { next := 0, log := (), retries := (), trace := [] }

/-- The decorator with budget `maxRetries` around a handler that replays `script` and then
keeps giving `last`, with a logger and a histogram that store nothing. -/
def scriptedRetry (maxRetries : Int) (script : List (Result String)) (last : Result String) :
    retry Unit String String Nat Unit :=
  NewRetryMiddleware nopLogger maxRetries (scripted script last)

/-- A world of an outer decorator in which nothing has happened yet, around `emptyWorld`. -/
def emptyOuterWorld :
    World Unit String String (World Unit String String Nat Unit Unit) Unit Unit :=
  { next := emptyWorld, log := (), retries := (), trace := [] }

/-- An uncoded error. -/
def errTransport : Error := Error.uncoded "connection reset"

/-- A coded error with the given status code. -/
def errCode (code : Int) : Error := Error.coded { Code := code, Body := "" }


section Lemmas

variable {Ctx Req Resp η ℓ μ : Type}

theorem Handler.outcome_succ (next : Handler Ctx Req Resp η) (ctx : Ctx) (req : Req) (s : η)
    (i : Nat) :
    Handler.outcome next ctx req s (i + 1) =
      Handler.outcome next ctx req (next ctx req s).2 i := rfl

theorem Handler.outcome_zero (next : Handler Ctx Req Resp η) (ctx : Ctx) (req : Req) (s : η) :
    Handler.outcome next ctx req s 0 = (next ctx req s).1 := rfl

/-- The loop, once its test fails. -/
theorem retry.loop_exit (retries : Histogram μ) (r : retry Ctx Req Resp η ℓ) (ctx : Ctx)
    (req : Req) (tries : Int) (lastErr : Option Error) (w : World Ctx Req Resp η ℓ μ)
    (h : ¬ tries < r.maxRetries) :
    retry.loop retries r ctx req tries lastErr w =
      match lastErr with
      | some err => ((none, some err), w)
      | none => ((none, some (exhausted r.maxRetries)),
          { w with trace := w.trace ++ [Event.Errorf 500
              ("Query failed after " ++ toString r.maxRetries ++ " retries.")] }) := by
  rw [retry.loop.eq_def, if_neg h]
  rfl

/-- One iteration of the loop whose handler call does not fail with a retryable error. -/
theorem retry.loop_stop (retries : Histogram μ) (r : retry Ctx Req Resp η ℓ) (ctx : Ctx)
    (req : Req) (tries : Int) (lastErr : Option Error) (w : World Ctx Req Resp η ℓ μ)
    (h : tries < r.maxRetries)
    (ho : retryableFailure (r.next ctx req w.next).1 = false) :
    retry.loop retries r ctx req tries lastErr w =
      (resultOf (r.next ctx req w.next).1,
        { w with
          next := (r.next ctx req w.next).2,
          retries := retries tries w.retries,
          trace := w.trace ++ attemptEvents ctx req tries (r.next ctx req w.next).1 }) := by
  rw [retry.loop.eq_def, if_pos h]
  simp only [World.Do, World.Observe]
  unfold retryableFailure at ho
  unfold resultOf attemptEvents
  cases hr : (r.next ctx req w.next).1.2 with
  | none => simp
  | some err =>
    rw [hr] at ho
    simp only at ho
    simp [ho]

/-- One iteration of the loop whose handler call fails with a retryable error. -/
theorem retry.loop_retry (retries : Histogram μ) (r : retry Ctx Req Resp η ℓ) (ctx : Ctx)
    (req : Req) (tries : Int) (lastErr : Option Error) (w : World Ctx Req Resp η ℓ μ)
    (h : tries < r.maxRetries) (err : Error)
    (he : (r.next ctx req w.next).1.2 = some err) (hr : retryable err = true) :
    retry.loop retries r ctx req tries lastErr w =
      retry.loop retries r ctx req (tries + 1) (some err)
        { next := (r.next ctx req w.next).2,
          log := (r.log (logLine tries err) w.log).2,
          retries := retries tries w.retries,
          trace := w.trace ++ attemptEvents ctx req tries (r.next ctx req w.next).1 } := by
  rw [retry.loop.eq_def, if_pos h]
  simp only [World.Do, World.Observe, World.Log, level.Error, logLine, attemptEvents, he, hr]
  simp

theorem retryableFailure_iff (o : Result Resp) :
    retryableFailure o = true ↔ ∃ err, o.2 = some err ∧ retryable err = true := by
  unfold retryableFailure
  cases o.2 <;> simp

/-- The loop in terms of the results that the handler gives. -/
theorem retry.loop_spec (retries : Histogram μ) (r : retry Ctx Req Resp η ℓ) (ctx : Ctx)
    (req : Req) (n : Nat) :
    ∀ (tries : Int) (lastErr : Option Error) (w : World Ctx Req Resp η ℓ μ),
      (r.maxRetries - tries).toNat = n →
      ∃ w2 : World Ctx Req Resp η ℓ μ,
        retry.loop retries r ctx req tries lastErr w =
          (finalResult r.maxRetries lastErr (Handler.outcome r.next ctx req w.next)
            (callsMade (Handler.outcome r.next ctx req w.next) n), w2) ∧
        w2.next = Handler.stateAfter r.next ctx req
          (callsMade (Handler.outcome r.next ctx req w.next) n) w.next ∧
        w2.trace = w.trace ++
          iterationEvents ctx req tries (Handler.outcome r.next ctx req w.next)
            (callsMade (Handler.outcome r.next ctx req w.next) n) ++
          finalEvents r.maxRetries lastErr
            (callsMade (Handler.outcome r.next ctx req w.next) n) := by
  induction n with
  | zero =>
    intro tries lastErr w hn
    have h : ¬ tries < r.maxRetries := by omega
    rw [retry.loop_exit retries r ctx req tries lastErr w h]
    cases lastErr with
    | none =>
      exact ⟨_, rfl, rfl, by simp [callsMade, iterationEvents, finalEvents]⟩
    | some err =>
      exact ⟨_, rfl, rfl, by simp [callsMade, iterationEvents, finalEvents]⟩
  | succ n ih =>
    intro tries lastErr w hn
    have h : tries < r.maxRetries := by omega
    cases ho : retryableFailure (r.next ctx req w.next).1 with
    | false =>
      rw [retry.loop_stop retries r ctx req tries lastErr w h ho]
      have hc : callsMade (Handler.outcome r.next ctx req w.next) (n + 1) = 1 := by
        simp [callsMade, Handler.outcome_zero, ho]
      rw [hc]
      exact ⟨_, rfl, rfl, by
        simp [iterationEvents, finalEvents, Handler.outcome_zero]⟩
    | true =>
      obtain ⟨err, he, hr⟩ := (retryableFailure_iff _).1 ho
      rw [retry.loop_retry retries r ctx req tries lastErr w h err he hr]
      have hc : callsMade (Handler.outcome r.next ctx req w.next) (n + 1) =
          callsMade (Handler.outcome r.next ctx req (r.next ctx req w.next).2) n + 1 := by
        simp only [callsMade, Handler.outcome_zero, ho, if_true]
        rfl
      obtain ⟨w2, h1, h2, h3⟩ := ih (tries + 1) (some err)
        { next := (r.next ctx req w.next).2,
          log := (r.log (logLine tries err) w.log).2,
          retries := retries tries w.retries,
          trace := w.trace ++ attemptEvents ctx req tries (r.next ctx req w.next).1 }
        (by omega)
      refine ⟨w2, ?_, ?_, ?_⟩
      · rw [h1, hc]
        cases hk : callsMade (Handler.outcome r.next ctx req (r.next ctx req w.next).2) n with
        | zero =>
          simp [finalResult, resultOf, Handler.outcome_zero, he]
        | succ k =>
          simp [finalResult, Handler.outcome_succ]
      · rw [h2, hc]
        rfl
      · rw [h3, hc]
        simp only [iterationEvents, finalEvents, Handler.outcome_zero, List.append_assoc]
        simp
        rfl

/-- The result of `retry.Do` in terms of the results that the handler gives. -/
theorem retry.Do_result (retries : Histogram μ) (r : retry Ctx Req Resp η ℓ) (ctx : Ctx)
    (req : Req) (w : World Ctx Req Resp η ℓ μ) :
    (r.Do retries ctx req w).1 =
      finalResult r.maxRetries none (Handler.outcome r.next ctx req w.next)
        (callsMade (Handler.outcome r.next ctx req w.next) r.maxRetries.toNat) := by
  obtain ⟨w2, h1, -, -⟩ :=
    retry.loop_spec retries r ctx req r.maxRetries.toNat 0 none w (by simp)
  simp [retry.Do, h1]

/-- The events of `retry.Do` in terms of the results that the handler gives. -/
theorem retry.events_eq (retries : Histogram μ) (r : retry Ctx Req Resp η ℓ) (ctx : Ctx)
    (req : Req) (w : World Ctx Req Resp η ℓ μ) :
    r.events retries ctx req w =
      iterationEvents ctx req 0 (Handler.outcome r.next ctx req w.next)
          (callsMade (Handler.outcome r.next ctx req w.next) r.maxRetries.toNat) ++
        finalEvents r.maxRetries none
          (callsMade (Handler.outcome r.next ctx req w.next) r.maxRetries.toNat) := by
  obtain ⟨w2, h1, -, h3⟩ :=
    retry.loop_spec retries r ctx req r.maxRetries.toNat 0 none w (by simp)
  simp [retry.events, retry.Do, h1, h3]

/-- The trace after `retry.Do` is the trace before it followed by the events of the call. -/
theorem retry.trace_eq (retries : Histogram μ) (r : retry Ctx Req Resp η ℓ) (ctx : Ctx)
    (req : Req) (w : World Ctx Req Resp η ℓ μ) :
    (r.Do retries ctx req w).2.trace = w.trace ++ r.events retries ctx req w := by
  obtain ⟨w2, h1, -, h3⟩ :=
    retry.loop_spec retries r ctx req r.maxRetries.toNat 0 none w (by simp)
  simp [retry.events, retry.Do, h1, h3]

theorem callsOf_append (s t : List (Event Ctx Req Resp)) :
    callsOf (s ++ t) = callsOf s ++ callsOf t := by
  simp [callsOf]

theorem callsOf_attemptEvents (ctx : Ctx) (req : Req) (tries : Int) (o : Result Resp) :
    callsOf (attemptEvents ctx req tries o) = [(ctx, req, o)] := by
  unfold attemptEvents callsOf
  cases h : o.2 with
  | none => simp [Event.call?, ← h]
  | some err =>
    by_cases hr : retryable err = true <;> simp [Event.call?, hr, ← h]

theorem callsOf_iterationEvents (ctx : Ctx) (req : Req) (c : Nat) :
    ∀ (tries : Int) (o : Nat → Result Resp),
      callsOf (iterationEvents ctx req tries o c) = (List.range c).map (fun i => (ctx, req, o i)) := by
  induction c with
  | zero => intro tries o; simp [iterationEvents, callsOf]
  | succ c ih =>
    intro tries o
    rw [iterationEvents, callsOf_append, callsOf_attemptEvents, ih, List.range_succ_eq_map]
    simp [Function.comp_def]

theorem callsOf_finalEvents (maxRetries : Int) (lastErr : Option Error) (c : Nat) :
    callsOf (finalEvents maxRetries lastErr c : List (Event Ctx Req Resp)) = [] := by
  unfold finalEvents callsOf
  split <;> simp [Event.call?]

/-- The handler calls of `retry.Do`: each with the context and the request of the
invocation, and as many as `callsMade` says. -/
theorem retry.calls_eq (retries : Histogram μ) (r : retry Ctx Req Resp η ℓ) (ctx : Ctx)
    (req : Req) (w : World Ctx Req Resp η ℓ μ) :
    callsOf (r.events retries ctx req w) =
      (List.range (callsMade (Handler.outcome r.next ctx req w.next) r.maxRetries.toNat)).map
        (fun i => (ctx, req, Handler.outcome r.next ctx req w.next i)) := by
  rw [retry.events_eq, callsOf_append, callsOf_iterationEvents, callsOf_finalEvents,
    List.append_nil]

/-! ### The number of calls -/

theorem callsMade_le (n : Nat) : ∀ o : Nat → Result Resp, callsMade o n ≤ n := by
  induction n with
  | zero => intro o; simp [callsMade]
  | succ n ih =>
    intro o
    unfold callsMade
    split
    · have := ih (fun i => o (i + 1)); omega
    · omega

theorem callsMade_pos (n : Nat) (hn : 0 < n) (o : Nat → Result Resp) : 0 < callsMade o n := by
  cases n with
  | zero => omega
  | succ n =>
    unfold callsMade
    split <;> omega

/-- Every call but the last one made failed with a retryable error. -/
theorem callsMade_prefix (n : Nat) :
    ∀ (o : Nat → Result Resp) (i : Nat), i + 1 < callsMade o n → retryableFailure (o i) = true := by
  induction n with
  | zero => intro o i h; simp [callsMade] at h
  | succ n ih =>
    intro o i h
    unfold callsMade at h
    split at h
    · next h0 =>
      cases i with
      | zero => exact h0
      | succ i => exact ih (fun i => o (i + 1)) i (by omega)
    · omega

/-- If the loop stops before its budget is used up, the last call did not fail with a
retryable error. -/
theorem callsMade_last (n : Nat) :
    ∀ (o : Nat → Result Resp), callsMade o n < n →
      retryableFailure (o (callsMade o n - 1)) = false := by
  induction n with
  | zero => intro o h; omega
  | succ n ih =>
    intro o h
    unfold callsMade at h ⊢
    split at h
    · next h0 =>
      have h1 := ih (fun i => o (i + 1)) (by omega)
      have h2 : 0 < callsMade (fun i => o (i + 1)) n := by
        apply callsMade_pos; omega
      rw [if_pos h0]
      have h3 : callsMade (fun i => o (i + 1)) n + 1 - 1 =
          (callsMade (fun i => o (i + 1)) n - 1) + 1 := by omega
      rw [h3]
      exact h1
    · next h0 =>
      rw [if_neg h0]
      simpa using h0

/-- After `k` retryable failures the loop makes call number `k`, budget allowing. -/
theorem callsMade_gt (n : Nat) :
    ∀ (o : Nat → Result Resp) (k : Nat), k < n →
      (∀ i, i < k → retryableFailure (o i) = true) → k < callsMade o n := by
  induction n with
  | zero => intro o k hk; omega
  | succ n ih =>
    intro o k hk hall
    unfold callsMade
    cases k with
    | zero => split <;> omega
    | succ k =>
      rw [if_pos (hall 0 (by omega))]
      have := ih (fun i => o (i + 1)) k (by omega) (fun i hi => hall (i + 1) (by omega))
      omega

/-- A budget of `n` calls that all fail with a retryable error is used up. -/
theorem callsMade_all (n : Nat) (o : Nat → Result Resp)
    (hall : ∀ i, i < n → retryableFailure (o i) = true) : callsMade o n = n := by
  cases n with
  | zero => rfl
  | succ n =>
    have h1 := callsMade_gt (n + 1) o n (by omega) (fun i hi => hall i (by omega))
    have h2 := callsMade_le (n + 1) o
    omega

/-- The loop stops at the first call that does not fail with a retryable error. -/
theorem callsMade_stop (n : Nat) (o : Nat → Result Resp) (k : Nat) (hk : k < n)
    (hall : ∀ i, i < k → retryableFailure (o i) = true)
    (hstop : retryableFailure (o k) = false) : callsMade o n = k + 1 := by
  have h1 := callsMade_gt n o k hk hall
  by_contra hne
  have h2 := callsMade_prefix n o k (by omega)
  rw [hstop] at h2
  cases h2

/-- The number of calls depends only on which results are retryable failures. -/
theorem callsMade_congr (n : Nat) :
    ∀ (o1 o2 : Nat → Result Resp),
      (∀ i, i < n → retryableFailure (o1 i) = retryableFailure (o2 i)) →
      callsMade o1 n = callsMade o2 n := by
  induction n with
  | zero => intro o1 o2 h; rfl
  | succ n ih =>
    intro o1 o2 h
    unfold callsMade
    rw [h 0 (by omega), ih (fun i => o1 (i + 1)) (fun i => o2 (i + 1))
      (fun i hi => h (i + 1) (by omega))]

/-- Go's `c/100 == 5` holds exactly for the codes 500 to 599. -/
theorem tdiv_hundred_eq_five_iff (c : Int) : c.tdiv 100 = 5 ↔ 500 ≤ c ∧ c ≤ 599 := by
  rcases le_or_lt 0 c with h | h
  · rw [Int.tdiv_eq_ediv h (by decide)]
    omega
  · have h1 : (-c).tdiv 100 = (-c) / 100 := Int.tdiv_eq_ediv (by omega) (by decide)
    have h2 : c.tdiv 100 = -((-c).tdiv 100) := by rw [Int.neg_tdiv, neg_neg]
    rw [h2, h1]
    omega

theorem retryable_coded (resp : HTTPResponse) :
    retryable (Error.coded resp) = true ↔ 500 ≤ resp.Code ∧ resp.Code ≤ 599 := by
  simp [retryable, httpgrpc.HTTPResponseFromError, tdiv_hundred_eq_five_iff]

theorem retryable_uncoded (msg : String) : retryable (Error.uncoded msg) = true := rfl

/-- An invocation whose call number `j` is the first that does not fail with a retryable
error makes `j + 1` calls and returns what that call decides. -/
theorem retry.Do_stop (retries : Histogram μ) (r : retry Ctx Req Resp η ℓ) (ctx : Ctx)
    (req : Req) (w : World Ctx Req Resp η ℓ μ) (j : Nat) (hj : (j : Int) < r.maxRetries)
    (hall : ∀ i, i < j → retryableFailure (Handler.outcome r.next ctx req w.next i) = true)
    (hstop : retryableFailure (Handler.outcome r.next ctx req w.next j) = false) :
    callsOf (r.events retries ctx req w) =
        (List.range (j + 1)).map
          (fun i => (ctx, req, Handler.outcome r.next ctx req w.next i)) ∧
      (r.Do retries ctx req w).1 = resultOf (Handler.outcome r.next ctx req w.next j) := by
  have hc : callsMade (Handler.outcome r.next ctx req w.next) r.maxRetries.toNat = j + 1 :=
    callsMade_stop _ _ j (by omega) hall hstop
  refine ⟨?_, ?_⟩
  · rw [retry.calls_eq, hc]
  · rw [retry.Do_result, hc]
    rfl

theorem retryable_iff (e : Error) :
    retryable e = true ↔
      (httpgrpc.HTTPResponseFromError e = none ∨
        ∃ h, httpgrpc.HTTPResponseFromError e = some h ∧ h.Code.tdiv 100 = 5) := by
  cases e <;> simp [retryable, httpgrpc.HTTPResponseFromError]

/-- A call recorded at position `k` is call number `k` of the handler. -/
theorem retry.call_at (retries : Histogram μ) (r : retry Ctx Req Resp η ℓ) (ctx : Ctx)
    (req : Req) (w : World Ctx Req Resp η ℓ μ) (k : Nat) (x : Ctx × Req × Result Resp)
    (h : (callsOf (r.events retries ctx req w))[k]? = some x) :
    k < callsMade (Handler.outcome r.next ctx req w.next) r.maxRetries.toNat ∧
      x = (ctx, req, Handler.outcome r.next ctx req w.next k) := by
  rw [retry.calls_eq, List.getElem?_eq_some] at h
  obtain ⟨hk, hx⟩ := h
  simp only [List.length_map, List.length_range] at hk
  simp only [List.getElem_map, List.getElem_range] at hx
  exact ⟨hk, hx.symm⟩

theorem retry.calls_length (retries : Histogram μ) (r : retry Ctx Req Resp η ℓ) (ctx : Ctx)
    (req : Req) (w : World Ctx Req Resp η ℓ μ) :
    (callsOf (r.events retries ctx req w)).length =
      callsMade (Handler.outcome r.next ctx req w.next) r.maxRetries.toNat := by
  rw [retry.calls_eq]
  simp

theorem length_attemptEvents_le (ctx : Ctx) (req : Req) (tries : Int) (o : Result Resp) :
    (attemptEvents ctx req tries o).length ≤ 3 := by
  unfold attemptEvents
  cases o.2 with
  | none => simp
  | some err => by_cases hr : retryable err = true <;> simp [hr]

theorem length_iterationEvents_le (ctx : Ctx) (req : Req) (c : Nat) :
    ∀ (tries : Int) (o : Nat → Result Resp),
      (iterationEvents ctx req tries o c).length ≤ 3 * c := by
  induction c with
  | zero => intro tries o; simp [iterationEvents]
  | succ c ih =>
    intro tries o
    rw [iterationEvents, List.length_append]
    have h1 := length_attemptEvents_le ctx req tries (o 0)
    have h2 := ih (tries + 1) (fun i => o (i + 1))
    omega

theorem length_finalEvents_le (maxRetries : Int) (lastErr : Option Error) (c : Nat) :
    (finalEvents maxRetries lastErr c : List (Event Ctx Req Resp)).length ≤ 1 := by
  unfold finalEvents
  split <;> simp

theorem not_Errorf_mem_attemptEvents (ctx : Ctx) (req : Req) (tries : Int) (o : Result Resp)
    (code : Int) (msg : String) : Event.Errorf code msg ∉ attemptEvents ctx req tries o := by
  unfold attemptEvents
  cases o.2 with
  | none => simp
  | some err => by_cases hr : retryable err = true <;> simp [hr]

theorem not_Errorf_mem_iterationEvents (ctx : Ctx) (req : Req) (code : Int) (msg : String)
    (c : Nat) :
    ∀ (tries : Int) (o : Nat → Result Resp),
      Event.Errorf code msg ∉ iterationEvents ctx req tries o c := by
  induction c with
  | zero => intro tries o; simp [iterationEvents]
  | succ c ih =>
    intro tries o
    rw [iterationEvents, List.mem_append, not_or]
    exact ⟨not_Errorf_mem_attemptEvents ctx req tries (o 0) code msg,
      ih (tries + 1) (fun i => o (i + 1))⟩

/-- No call is made exactly when the budget is not positive. -/
theorem callsMade_eq_zero_iff (maxRetries : Int) (o : Nat → Result Resp) :
    callsMade o maxRetries.toNat = 0 ↔ maxRetries ≤ 0 := by
  constructor
  · intro h
    by_contra hpos
    have := callsMade_pos maxRetries.toNat (by omega) o
    omega
  · intro h
    have := callsMade_le maxRetries.toNat o
    omega

/-- The last recorded call of an invocation that made `m + 1` calls. -/
theorem retry.calls_getLast (retries : Histogram μ) (r : retry Ctx Req Resp η ℓ) (ctx : Ctx)
    (req : Req) (w : World Ctx Req Resp η ℓ μ) (m : Nat)
    (hc : callsMade (Handler.outcome r.next ctx req w.next) r.maxRetries.toNat = m + 1) :
    (callsOf (r.events retries ctx req w)).getLast? =
      some (ctx, req, Handler.outcome r.next ctx req w.next m) := by
  rw [retry.calls_eq, hc, List.range_succ]
  simp

theorem swapsCoding_retryable (ea eb : Error) (h : swapsCoding ea eb = true) :
    retryable ea = true ∧ retryable eb = true := by
  cases ea <;> cases eb <;>
    simp_all [swapsCoding, retryable, httpgrpc.HTTPResponseFromError]

theorem sameUpToCoding_retryableFailure (a b : Result Resp) (h : sameUpToCoding a b) :
    retryableFailure a = retryableFailure b := by
  rcases h with h | ⟨-, ea, eb, ha, hb, hs⟩
  · rw [h]
  · obtain ⟨h1, h2⟩ := swapsCoding_retryable ea eb hs
    simp [retryableFailure, ha, hb, h1, h2]

theorem sameUpToCoding_resultOf (a b : Result Resp) (h : sameUpToCoding a b) :
    ((resultOf a).2 = none ↔ (resultOf b).2 = none) ∧
      ((resultOf a).2 = none → resultOf a = resultOf b) := by
  rcases h with h | ⟨-, ea, eb, ha, hb, -⟩
  · rw [h]
    exact ⟨Iff.rfl, fun _ => rfl⟩
  · simp [resultOf, ha, hb]

/-- The results of a scripted handler. -/
theorem outcome_scripted (script : List (Result String)) (last : Result String) (req : String)
    (i : Nat) : ∀ s : Nat,
      Handler.outcome (scripted script last) () req s i = script.getD (s + i) last := by
  induction i with
  | zero => intro s; rfl
  | succ i ih =>
    intro s
    rw [Handler.outcome_succ]
    have : (scripted script last () req s).2 = s + 1 := rfl
    rw [this, ih (s + 1)]
    congr 1
    omega

end Lemmas

section TraceLemmas

variable {Ctx Req Resp η ℓ μ : Type}

theorem observationsOf_attemptEvents (ctx : Ctx) (req : Req) (tries : Int) (o : Result Resp) :
    observationsOf (attemptEvents ctx req tries o) = [tries] := by
  unfold attemptEvents observationsOf
  cases h : o.2 with
  | none => simp [Event.observation?]
  | some err => by_cases hr : retryable err = true <;> simp [Event.observation?, hr]

theorem observationsOf_iterationEvents (ctx : Ctx) (req : Req) (c : Nat) :
    ∀ (tries : Int) (o : Nat → Result Resp),
      observationsOf (iterationEvents ctx req tries o c) =
        (List.range c).map (fun i : Nat => tries + (i : Int)) := by
  induction c with
  | zero => intro tries o; simp [iterationEvents, observationsOf]
  | succ c ih =>
    intro tries o
    rw [iterationEvents]
    have happ : observationsOf (attemptEvents ctx req tries (o 0) ++
        iterationEvents ctx req (tries + 1) (fun i => o (i + 1)) c) =
        observationsOf (attemptEvents ctx req tries (o 0)) ++
          observationsOf (iterationEvents ctx req (tries + 1) (fun i => o (i + 1)) c) := by
      simp [observationsOf]
    rw [happ, observationsOf_attemptEvents, ih, List.range_succ_eq_map]
    simp only [List.map_cons, List.map_map, List.singleton_append, Nat.cast_zero, add_zero,
      List.cons.injEq, true_and]
    apply List.map_congr_left
    intro i _
    simp only [Function.comp_apply, Nat.succ_eq_add_one, Nat.cast_add, Nat.cast_one]
    omega

theorem observationsOf_finalEvents (maxRetries : Int) (lastErr : Option Error) (c : Nat) :
    observationsOf (finalEvents maxRetries lastErr c : List (Event Ctx Req Resp)) = [] := by
  unfold finalEvents observationsOf
  split <;> simp [Event.observation?]

/-- The observations of `retry.Do`. -/
theorem retry.observations_eq (retries : Histogram μ) (r : retry Ctx Req Resp η ℓ) (ctx : Ctx)
    (req : Req) (w : World Ctx Req Resp η ℓ μ) :
    observationsOf (r.events retries ctx req w) =
      (List.range (callsMade (Handler.outcome r.next ctx req w.next) r.maxRetries.toNat)).map
        (fun i : Nat => (i : Int)) := by
  rw [retry.events_eq]
  have happ : ∀ s t : List (Event Ctx Req Resp),
      observationsOf (s ++ t) = observationsOf s ++ observationsOf t := by
    intro s t; simp [observationsOf]
  rw [happ, observationsOf_iterationEvents, observationsOf_finalEvents, List.append_nil]
  simp

theorem logsOf_attemptEvents (ctx : Ctx) (req : Req) (tries : Int) (o : Result Resp) :
    logsOf (attemptEvents ctx req tries o) = (retryLog tries o).toList := by
  unfold attemptEvents logsOf retryLog
  cases h : o.2 with
  | none => simp [Event.log?]
  | some err => by_cases hr : retryable err = true <;> simp [Event.log?, hr]

theorem logsOf_iterationEvents (ctx : Ctx) (req : Req) (c : Nat) :
    ∀ (tries : Int) (o : Nat → Result Resp),
      logsOf (iterationEvents ctx req tries o c) =
        (List.range c).filterMap (fun i : Nat => retryLog (tries + (i : Int)) (o i)) := by
  induction c with
  | zero => intro tries o; simp [iterationEvents, logsOf]
  | succ c ih =>
    intro tries o
    rw [iterationEvents]
    have happ : logsOf (attemptEvents ctx req tries (o 0) ++
        iterationEvents ctx req (tries + 1) (fun i => o (i + 1)) c) =
        logsOf (attemptEvents ctx req tries (o 0)) ++
          logsOf (iterationEvents ctx req (tries + 1) (fun i => o (i + 1)) c) := by
      simp [logsOf]
    rw [happ, logsOf_attemptEvents, ih, List.range_succ_eq_map, List.filterMap_cons,
      List.filterMap_map]
    have hfun : (fun i : Nat => retryLog (tries + 1 + (i : Int)) (o (i + 1))) =
        (fun i : Nat => retryLog (tries + (i : Int)) (o i)) ∘ Nat.succ := by
      funext i
      simp only [Function.comp_apply, Nat.succ_eq_add_one, Nat.cast_add, Nat.cast_one]
      congr 1
      omega
    rw [hfun]
    cases hl : retryLog (tries + ((0 : Nat) : Int)) (o 0) with
    | none =>
      have hl2 : retryLog tries (o 0) = none := by simpa using hl
      simp [hl2]
    | some line =>
      have hl2 : retryLog tries (o 0) = some line := by simpa using hl
      simp [hl2]

theorem logsOf_finalEvents (maxRetries : Int) (lastErr : Option Error) (c : Nat) :
    logsOf (finalEvents maxRetries lastErr c : List (Event Ctx Req Resp)) = [] := by
  unfold finalEvents logsOf
  split <;> simp [Event.log?]

/-- The log lines of `retry.Do`. -/
theorem retry.logs_eq (retries : Histogram μ) (r : retry Ctx Req Resp η ℓ) (ctx : Ctx)
    (req : Req) (w : World Ctx Req Resp η ℓ μ) :
    logsOf (r.events retries ctx req w) =
      (List.range (callsMade (Handler.outcome r.next ctx req w.next)
          r.maxRetries.toNat)).filterMap
        (fun i : Nat => retryLog (i : Int) (Handler.outcome r.next ctx req w.next i)) := by
  rw [retry.events_eq]
  have happ : ∀ s t : List (Event Ctx Req Resp), logsOf (s ++ t) = logsOf s ++ logsOf t := by
    intro s t; simp [logsOf]
  rw [happ, logsOf_iterationEvents, logsOf_finalEvents, List.append_nil]
  simp

theorem filter_attemptEvents (ctx : Ctx) (req : Req) (tries : Int) (o : Result Resp) :
    (attemptEvents ctx req tries o).filter Event.isObserveOrDo =
      [Event.Observe tries, Event.Do ctx req o.1 o.2] := by
  unfold attemptEvents
  cases h : o.2 with
  | none => simp [Event.isObserveOrDo]
  | some err => by_cases hr : retryable err = true <;> simp [Event.isObserveOrDo, hr]

theorem filter_iterationEvents (ctx : Ctx) (req : Req) (c : Nat) :
    ∀ (tries : Int) (o : Nat → Result Resp),
      (iterationEvents ctx req tries o c).filter Event.isObserveOrDo =
        (List.range c).flatMap (fun i : Nat =>
          [Event.Observe (tries + (i : Int)), Event.Do ctx req (o i).1 (o i).2]) := by
  induction c with
  | zero => intro tries o; simp [iterationEvents]
  | succ c ih =>
    intro tries o
    rw [iterationEvents, List.filter_append, filter_attemptEvents, ih, List.range_succ_eq_map,
      List.flatMap_cons, List.flatMap_map]
    have hfun : (fun i : Nat => [Event.Observe (tries + 1 + (i : Int)),
          Event.Do ctx req (o (i + 1)).1 (o (i + 1)).2]) =
        (fun i : Nat => [Event.Observe (tries + (i : Int)),
          Event.Do ctx req (o i).1 (o i).2]) ∘ Nat.succ := by
      funext i
      simp only [Function.comp_apply, Nat.succ_eq_add_one, Nat.cast_add, Nat.cast_one]
      have : tries + 1 + (i : Int) = tries + ((i : Int) + 1) := by omega
      rw [this]
    rw [hfun]
    simp [Function.comp_def]

theorem filter_finalEvents (maxRetries : Int) (lastErr : Option Error) (c : Nat) :
    (finalEvents maxRetries lastErr c : List (Event Ctx Req Resp)).filter
      Event.isObserveOrDo = [] := by
  unfold finalEvents
  split <;> simp [Event.isObserveOrDo]

/-- The observations and handler calls of `retry.Do`, in the order in which they are made. -/
theorem retry.attempts_eq (retries : Histogram μ) (r : retry Ctx Req Resp η ℓ) (ctx : Ctx)
    (req : Req) (w : World Ctx Req Resp η ℓ μ) :
    (r.events retries ctx req w).filter Event.isObserveOrDo =
      (List.range (callsMade (Handler.outcome r.next ctx req w.next)
          r.maxRetries.toNat)).flatMap
        (fun i : Nat => [Event.Observe (i : Int),
          Event.Do ctx req (Handler.outcome r.next ctx req w.next i).1
            (Handler.outcome r.next ctx req w.next i).2]) := by
  rw [retry.events_eq, List.filter_append, filter_iterationEvents, filter_finalEvents,
    List.append_nil]
  simp

theorem retryLog_of_not_retryableFailure (tries : Int) (o : Result Resp)
    (h : retryableFailure o = false) : retryLog tries o = none := by
  unfold retryableFailure at h
  unfold retryLog
  cases ho : o.2 with
  | none => rfl
  | some err =>
    rw [ho] at h
    simp only at h
    simp [h]

theorem retryLog_of_retryable (tries : Int) (o : Result Resp) (err : Error)
    (he : o.2 = some err) (hr : retryable err = true) :
    retryLog tries o = some (logLine tries err) := by
  simp [retryLog, he, hr]

/-- The states of the logger and of the histogram after the loop: the configured logger has
received the log lines of the iterations, the histogram their observations, in order. -/
theorem retry.loop_collaborators (retries : Histogram μ) (r : retry Ctx Req Resp η ℓ)
    (ctx : Ctx) (req : Req) (n : Nat) :
    ∀ (tries : Int) (lastErr : Option Error) (w : World Ctx Req Resp η ℓ μ),
      (r.maxRetries - tries).toNat = n →
      (retry.loop retries r ctx req tries lastErr w).2.log =
          (logsOf (iterationEvents ctx req tries (Handler.outcome r.next ctx req w.next)
            (callsMade (Handler.outcome r.next ctx req w.next) n))).foldl
            (fun st line => (r.log line st).2) w.log ∧
        (retry.loop retries r ctx req tries lastErr w).2.retries =
          (observationsOf (iterationEvents ctx req tries (Handler.outcome r.next ctx req w.next)
            (callsMade (Handler.outcome r.next ctx req w.next) n))).foldl
            (fun st v => retries v st) w.retries := by
  induction n with
  | zero =>
    intro tries lastErr w hn
    have h : ¬ tries < r.maxRetries := by omega
    rw [retry.loop_exit retries r ctx req tries lastErr w h]
    cases lastErr <;> simp [callsMade, iterationEvents, logsOf, observationsOf]
  | succ n ih =>
    intro tries lastErr w hn
    have h : tries < r.maxRetries := by omega
    have happL : ∀ s t : List (Event Ctx Req Resp), logsOf (s ++ t) = logsOf s ++ logsOf t := by
      intro s t; simp [logsOf]
    have happO : ∀ s t : List (Event Ctx Req Resp),
        observationsOf (s ++ t) = observationsOf s ++ observationsOf t := by
      intro s t; simp [observationsOf]
    cases ho : retryableFailure (r.next ctx req w.next).1 with
    | false =>
      rw [retry.loop_stop retries r ctx req tries lastErr w h ho]
      have hc : callsMade (Handler.outcome r.next ctx req w.next) (n + 1) = 1 := by
        simp [callsMade, Handler.outcome_zero, ho]
      rw [hc]
      simp only [iterationEvents, List.append_nil, logsOf_attemptEvents,
        observationsOf_attemptEvents, Handler.outcome_zero,
        retryLog_of_not_retryableFailure tries _ ho]
      exact ⟨rfl, rfl⟩
    | true =>
      obtain ⟨err, he, hr⟩ := (retryableFailure_iff _).1 ho
      rw [retry.loop_retry retries r ctx req tries lastErr w h err he hr]
      have hc : callsMade (Handler.outcome r.next ctx req w.next) (n + 1) =
          callsMade (Handler.outcome r.next ctx req (r.next ctx req w.next).2) n + 1 := by
        simp only [callsMade, Handler.outcome_zero, ho, if_true]
        rfl
      obtain ⟨h1, h2⟩ := ih (tries + 1) (some err)
        { next := (r.next ctx req w.next).2,
          log := (r.log (logLine tries err) w.log).2,
          retries := retries tries w.retries,
          trace := w.trace ++ attemptEvents ctx req tries (r.next ctx req w.next).1 }
        (by omega)
      rw [h1, h2, hc]
      simp only [iterationEvents, happL, happO, logsOf_attemptEvents,
        observationsOf_attemptEvents, Handler.outcome_zero,
        retryLog_of_retryable tries _ err he hr, Option.toList, List.foldl_append,
        List.foldl_cons, List.foldl_nil]
      exact ⟨rfl, rfl⟩

/-- The state of the wrapped handler after `retry.Do`: the state after the calls made. -/
theorem retry.Do_next (retries : Histogram μ) (r : retry Ctx Req Resp η ℓ) (ctx : Ctx)
    (req : Req) (w : World Ctx Req Resp η ℓ μ) :
    (r.Do retries ctx req w).2.next =
      Handler.stateAfter r.next ctx req
        (callsMade (Handler.outcome r.next ctx req w.next) r.maxRetries.toNat) w.next := by
  obtain ⟨w2, h1, h2, -⟩ :=
    retry.loop_spec retries r ctx req r.maxRetries.toNat 0 none w (by simp)
  simp [retry.Do, h1, h2]

/-- The states of the logger and of the histogram after `retry.Do`. -/
theorem retry.Do_collaborators (retries : Histogram μ) (r : retry Ctx Req Resp η ℓ) (ctx : Ctx)
    (req : Req) (w : World Ctx Req Resp η ℓ μ) :
    (r.Do retries ctx req w).2.log =
        (logsOf (r.events retries ctx req w)).foldl (fun st line => (r.log line st).2) w.log ∧
      (r.Do retries ctx req w).2.retries =
        (observationsOf (r.events retries ctx req w)).foldl
          (fun st v => retries v st) w.retries := by
  have h := retry.loop_collaborators retries r ctx req r.maxRetries.toNat 0 none w (by simp)
  have happL : ∀ s t : List (Event Ctx Req Resp), logsOf (s ++ t) = logsOf s ++ logsOf t := by
    intro s t; simp [logsOf]
  have happO : ∀ s t : List (Event Ctx Req Resp),
      observationsOf (s ++ t) = observationsOf s ++ observationsOf t := by
    intro s t; simp [observationsOf]
  rw [retry.events_eq, happL, happO, logsOf_finalEvents, observationsOf_finalEvents,
    List.append_nil, List.append_nil]
  exact h

/-- What `retry.Do` returns depends only on the results of the calls that the budget
allows. -/
theorem finalResult_congr (maxRetries : Int) (n : Nat) (o1 o2 : Nat → Result Resp)
    (h : ∀ i, i < n → o1 i = o2 i) :
    finalResult maxRetries none o1 (callsMade o1 n) =
      finalResult maxRetries none o2 (callsMade o2 n) := by
  have hc : callsMade o1 n = callsMade o2 n :=
    callsMade_congr n o1 o2 (fun i hi => by rw [h i hi])
  rw [hc]
  cases hk : callsMade o2 n with
  | zero => rfl
  | succ k =>
    have hle := callsMade_le n o2
    simp only [finalResult]
    rw [h k (by omega)]

end TraceLemmas

/-! ## A decorator around a decorator -/

section Composition

variable {Ctx Req Resp η ℓ μ : Type}

theorem Handler.stateAfter_add (next : Handler Ctx Req Resp η) (ctx : Ctx) (req : Req)
    (a b : Nat) : ∀ s : η,
      Handler.stateAfter next ctx req (a + b) s =
        Handler.stateAfter next ctx req b (Handler.stateAfter next ctx req a s) := by
  induction a with
  | zero => intro s; simp [Handler.stateAfter]
  | succ a ih =>
    intro s
    have h : a + 1 + b = (a + b) + 1 := by omega
    rw [h]
    simp only [Handler.stateAfter]
    exact ih _

theorem Handler.stateAfter_succ (next : Handler Ctx Req Resp η) (ctx : Ctx) (req : Req)
    (k : Nat) (s : η) :
    Handler.stateAfter next ctx req (k + 1) s =
      (next ctx req (Handler.stateAfter next ctx req k s)).2 := by
  rw [Handler.stateAfter_add]
  rfl

theorem Handler.outcome_add (next : Handler Ctx Req Resp η) (ctx : Ctx) (req : Req)
    (a i : Nat) (s : η) :
    Handler.outcome next ctx req (Handler.stateAfter next ctx req a s) i =
      Handler.outcome next ctx req s (a + i) := by
  unfold Handler.outcome
  rw [Handler.stateAfter_add]

/-- An invocation with a budget `M ≥ 1` whose handler fails with a retryable error `M`
times: what it returns, where it leaves the handler, and what it adds to the trace. -/
theorem retry.Do_all_fail (retries : Histogram μ) (r : retry Ctx Req Resp η ℓ) (ctx : Ctx)
    (req : Req) (w : World Ctx Req Resp η ℓ μ) (M : Nat) (hM : 1 ≤ M)
    (hmax : r.maxRetries = M)
    (hall : ∀ i, i < M → retryableFailure (Handler.outcome r.next ctx req w.next i) = true) :
    (r.Do retries ctx req w).1 = (none, (Handler.outcome r.next ctx req w.next (M - 1)).2) ∧
      retryableFailure (r.Do retries ctx req w).1 = true ∧
      (r.Do retries ctx req w).2.next = Handler.stateAfter r.next ctx req M w.next ∧
      callsOf (r.events retries ctx req w) =
        (List.range M).map (fun i => (ctx, req, Handler.outcome r.next ctx req w.next i)) := by
  have hc : callsMade (Handler.outcome r.next ctx req w.next) r.maxRetries.toNat = M := by
    rw [hmax, Int.toNat_ofNat]
    exact callsMade_all M _ hall
  obtain ⟨e, he, hr⟩ := (retryableFailure_iff _).1 (hall (M - 1) (by omega))
  have hres : (r.Do retries ctx req w).1 =
      (none, (Handler.outcome r.next ctx req w.next (M - 1)).2) := by
    rw [retry.Do_result, hc]
    obtain ⟨m, rfl⟩ : ∃ m, M = m + 1 := ⟨M - 1, by omega⟩
    simp only [Nat.add_sub_cancel] at he ⊢
    simp [finalResult, resultOf, he]
  refine ⟨hres, ?_, ?_, ?_⟩
  · rw [hres]
    simp [retryableFailure, he, hr]
  · rw [retry.Do_next, hc]
  · rw [retry.calls_eq, hc]

/-- An invocation with a budget that is not positive. -/
theorem retry.Do_nonpositive (retries : Histogram μ) (r : retry Ctx Req Resp η ℓ) (ctx : Ctx)
    (req : Req) (w : World Ctx Req Resp η ℓ μ) (h : r.maxRetries ≤ 0) :
    r.Do retries ctx req w =
      ((none, some (httpgrpc.Errorf 500
          ("Query failed after " ++ toString r.maxRetries ++ " retries."))),
        { next := w.next, log := w.log, retries := w.retries,
          trace := w.trace ++
            [Event.Errorf 500 ("Query failed after " ++ toString r.maxRetries ++ " retries.")] }) := by
  unfold retry.Do
  rw [retry.loop_exit retries r ctx req 0 none w (by omega)]
  rfl

/-- The inner decorator as a handler, when the innermost handler keeps failing with
retryable errors: after `k` invocations the innermost handler has been called `k * M`
times, and invocation number `k` returns the error of its last call. -/
theorem inner_all_fail (retries : Histogram μ) (r : retry Ctx Req Resp η ℓ) (ctx : Ctx)
    (req : Req) (w : World Ctx Req Resp η ℓ μ) (M : Nat) (hM : 1 ≤ M)
    (hmax : r.maxRetries = M) (N : Nat)
    (hall : ∀ i, i < N * M →
      retryableFailure (Handler.outcome r.next ctx req w.next i) = true) (k : Nat) :
    k ≤ N →
      (Handler.stateAfter (r.Do retries) ctx req k w).next =
          Handler.stateAfter r.next ctx req (k * M) w.next ∧
        (∃ D, (Handler.stateAfter (r.Do retries) ctx req k w).trace = w.trace ++ D ∧
          callsOf D = (List.range (k * M)).map
            (fun i => (ctx, req, Handler.outcome r.next ctx req w.next i))) := by
  induction k with
  | zero =>
    intro _
    exact ⟨by simp [Handler.stateAfter], [], by simp [Handler.stateAfter], by simp [callsOf]⟩
  | succ k ih =>
    intro hk
    obtain ⟨hnext, D, htrace, hD⟩ := ih (by omega)
    have hlt : k * M + M ≤ N * M := by
      have : (k + 1) * M ≤ N * M := Nat.mul_le_mul_right M hk
      rw [Nat.add_mul, Nat.one_mul] at this
      exact this
    have hall2 : ∀ i, i < M → retryableFailure (Handler.outcome r.next ctx req
        (Handler.stateAfter (r.Do retries) ctx req k w).next i) = true := by
      intro i hi
      rw [hnext, Handler.outcome_add]
      exact hall _ (by omega)
    obtain ⟨-, -, h3, h4⟩ := retry.Do_all_fail retries r ctx req
      (Handler.stateAfter (r.Do retries) ctx req k w) M hM hmax hall2
    rw [Handler.stateAfter_succ]
    refine ⟨?_, ?_⟩
    · rw [h3, hnext, ← Handler.stateAfter_add, Nat.add_mul, Nat.one_mul]
    · refine ⟨D ++ r.events retries ctx req (Handler.stateAfter (r.Do retries) ctx req k w),
        ?_, ?_⟩
      · rw [retry.trace_eq, htrace, List.append_assoc]
      · rw [callsOf_append, hD, h4, hnext, Nat.add_mul, Nat.one_mul, List.range_add,
          List.map_append, List.map_map]
        congr 1
        apply List.map_congr_left
        intro i _
        simp only [Function.comp_apply]
        rw [Handler.outcome_add]

/-- The result of invocation number `k` of the inner decorator in the situation of
`inner_all_fail`. -/
theorem inner_all_fail_outcome (retries : Histogram μ) (r : retry Ctx Req Resp η ℓ) (ctx : Ctx)
    (req : Req) (w : World Ctx Req Resp η ℓ μ) (M : Nat) (hM : 1 ≤ M)
    (hmax : r.maxRetries = M) (N : Nat)
    (hall : ∀ i, i < N * M →
      retryableFailure (Handler.outcome r.next ctx req w.next i) = true) (k : Nat)
    (hk : k < N) :
    Handler.outcome (r.Do retries) ctx req w k =
        (none, (Handler.outcome r.next ctx req w.next (k * M + (M - 1))).2) ∧
      retryableFailure (Handler.outcome (r.Do retries) ctx req w k) = true := by
  obtain ⟨hnext, -⟩ := inner_all_fail retries r ctx req w M hM hmax N hall k (by omega)
  have hlt : k * M + M ≤ N * M := by
    have : (k + 1) * M ≤ N * M := Nat.mul_le_mul_right M hk
    rw [Nat.add_mul, Nat.one_mul] at this
    exact this
  have hall2 : ∀ i, i < M → retryableFailure (Handler.outcome r.next ctx req
      (Handler.stateAfter (r.Do retries) ctx req k w).next i) = true := by
    intro i hi
    rw [hnext, Handler.outcome_add]
    exact hall _ (by omega)
  obtain ⟨h1, h2, -, -⟩ := retry.Do_all_fail retries r ctx req
    (Handler.stateAfter (r.Do retries) ctx req k w) M hM hmax hall2
  have hout : Handler.outcome (r.Do retries) ctx req w k =
      (r.Do retries ctx req (Handler.stateAfter (r.Do retries) ctx req k w)).1 := rfl
  rw [hout]
  refine ⟨?_, h2⟩
  rw [h1, hnext, Handler.outcome_add]

/-- The inner decorator as a handler, when its budget is not positive: it never calls the
innermost handler, and every invocation returns the error built after the loop. -/
theorem inner_nonpositive (retries : Histogram μ) (r : retry Ctx Req Resp η ℓ) (ctx : Ctx)
    (req : Req) (w : World Ctx Req Resp η ℓ μ) (h : r.maxRetries ≤ 0) (k : Nat) :
    (Handler.stateAfter (r.Do retries) ctx req k w).next = w.next ∧
      (∃ D, (Handler.stateAfter (r.Do retries) ctx req k w).trace = w.trace ++ D ∧
        callsOf D = []) ∧
      Handler.outcome (r.Do retries) ctx req w k =
        (none, some (httpgrpc.Errorf 500
          ("Query failed after " ++ toString r.maxRetries ++ " retries."))) := by
  have hnext : ∀ k, (Handler.stateAfter (r.Do retries) ctx req k w).next = w.next := by
    intro k
    induction k with
    | zero => rfl
    | succ k ih =>
      rw [Handler.stateAfter_succ, retry.Do_nonpositive retries r ctx req _ h]
      exact ih
  have htrace : ∀ k, ∃ D, (Handler.stateAfter (r.Do retries) ctx req k w).trace = w.trace ++ D ∧
      callsOf D = [] := by
    intro k
    induction k with
    | zero => exact ⟨[], by simp [Handler.stateAfter], rfl⟩
    | succ k ih =>
      obtain ⟨D, hD, hc⟩ := ih
      rw [Handler.stateAfter_succ, retry.Do_nonpositive retries r ctx req _ h]
      refine ⟨D ++ [Event.Errorf 500
        ("Query failed after " ++ toString r.maxRetries ++ " retries.")], ?_, ?_⟩
      · simp only [hD, List.append_assoc]
      · rw [callsOf_append, hc]
        rfl
  have hout : Handler.outcome (r.Do retries) ctx req w k =
      (r.Do retries ctx req (Handler.stateAfter (r.Do retries) ctx req k w)).1 := rfl
  refine ⟨hnext k, htrace k, ?_⟩
  rw [hout, retry.Do_nonpositive retries r ctx req _ h]

end Composition

/-! ## The claims -/

section Claims

variable {Ctx Req Resp η ℓ μ : Type}

/-- C1: with `maxRetries = N ≥ 1` and a handler whose calls all fail with a retryable error,
`retry.Do` makes exactly the `N` calls number `0, ..., N-1` and returns a nil response with
the error of the last of them. -/
theorem C1_exhausted_returns_last_error (retries : Histogram μ) (r : retry Ctx Req Resp η ℓ)
    (ctx : Ctx) (req : Req) (w : World Ctx Req Resp η ℓ μ) (N : Nat) (hN : 1 ≤ N)
    (hmax : r.maxRetries = N)
    (hfail : ∀ i, i < N →
      ∃ e, (Handler.outcome r.next ctx req w.next i).2 = some e ∧ retryable e = true) :
    callsOf (r.events retries ctx req w) =
        (List.range N).map (fun i => (ctx, req, Handler.outcome r.next ctx req w.next i)) ∧
      (callsOf (r.events retries ctx req w)).length = N ∧
      ∃ e, (Handler.outcome r.next ctx req w.next (N - 1)).2 = some e ∧
        (r.Do retries ctx req w).1 = (none, some e) := by
  have hc : callsMade (Handler.outcome r.next ctx req w.next) r.maxRetries.toNat = N := by
    rw [hmax, Int.toNat_ofNat]
    exact callsMade_all N _ (fun i hi => (retryableFailure_iff _).2 (hfail i hi))
  have hcalls := retry.calls_eq retries r ctx req w
  rw [hc] at hcalls
  refine ⟨hcalls, by simp [hcalls], ?_⟩
  obtain ⟨e, he, -⟩ := hfail (N - 1) (by omega)
  refine ⟨e, he, ?_⟩
  rw [retry.Do_result, hc]
  obtain ⟨m, rfl⟩ : ∃ m, N = m + 1 := ⟨N - 1, by omega⟩
  simp only [Nat.add_sub_cancel] at he
  simp [finalResult, resultOf, he]

/-- Witness of C1: a budget of three against a handler that fails with 500, with an uncoded
error and with 503: three calls, and the 503 of the third call is returned. -/
theorem C1_witness :
    (callsOf ((scriptedRetry 3 [(none, some (errCode 500)), (none, some errTransport)]
        (none, some (errCode 503))).events nopHistogram () "q" emptyWorld)).length = 3 ∧
      ((scriptedRetry 3 [(none, some (errCode 500)), (none, some errTransport)]
        (none, some (errCode 503))).Do nopHistogram () "q" emptyWorld).1 =
          (none, some (errCode 503)) := by
  obtain ⟨-, hlen, e, he, hres⟩ := C1_exhausted_returns_last_error nopHistogram
    (scriptedRetry 3 [(none, some (errCode 500)), (none, some errTransport)]
      (none, some (errCode 503)))
    () "q" emptyWorld 3 (by decide) rfl
    (by
      intro i hi
      interval_cases i
      · exact ⟨errCode 500, rfl, by decide⟩
      · exact ⟨errTransport, rfl, by decide⟩
      · exact ⟨errCode 503, rfl, by decide⟩)
  have h503 : some (errCode 503) = some e := he
  exact ⟨hlen, by rw [hres, h503]⟩

/-- C2: with `maxRetries = N ≥ 1` and `1 ≤ k ≤ N`, if the first `k-1` calls of the handler
fail with retryable errors and call `k` returns the response `resp` and a nil error, then
`retry.Do` makes exactly `k` calls and returns `(resp, nil)`. -/
theorem C2_success_on_attempt_k (retries : Histogram μ) (r : retry Ctx Req Resp η ℓ)
    (ctx : Ctx) (req : Req) (w : World Ctx Req Resp η ℓ μ) (N k : Nat) (hk : 1 ≤ k)
    (hkN : k ≤ N) (hmax : r.maxRetries = N)
    (hfail : ∀ i, i < k - 1 →
      ∃ e, (Handler.outcome r.next ctx req w.next i).2 = some e ∧ retryable e = true)
    (resp : Option Resp)
    (hsucc : Handler.outcome r.next ctx req w.next (k - 1) = (resp, none)) :
    callsOf (r.events retries ctx req w) =
        (List.range k).map (fun i => (ctx, req, Handler.outcome r.next ctx req w.next i)) ∧
      (callsOf (r.events retries ctx req w)).length = k ∧
      (r.Do retries ctx req w).1 = (resp, none) := by
  obtain ⟨h1, h2⟩ := retry.Do_stop retries r ctx req w (k - 1) (by omega)
    (fun i hi => (retryableFailure_iff _).2 (hfail i hi))
    (by simp [retryableFailure, hsucc])
  have hk1 : k - 1 + 1 = k := by omega
  rw [hk1] at h1
  refine ⟨h1, by simp [h1], ?_⟩
  rw [h2, hsucc]
  rfl

/-- Witness of C2: a budget of five against a handler that fails twice with an uncoded error
and then succeeds: three calls, and the success of the third call is returned. -/
theorem C2_witness :
    (callsOf ((scriptedRetry 5 [(none, some errTransport), (none, some errTransport)]
        (some "ok", none)).events nopHistogram () "q" emptyWorld)).length = 3 ∧
      ((scriptedRetry 5 [(none, some errTransport), (none, some errTransport)]
        (some "ok", none)).Do nopHistogram () "q" emptyWorld).1 = (some "ok", none) :=
  (C2_success_on_attempt_k nopHistogram
    (scriptedRetry 5 [(none, some errTransport), (none, some errTransport)] (some "ok", none))
    () "q" emptyWorld 5 3 (by decide) (by decide) rfl
    (by
      intro i hi
      have hi2 : i < 2 := hi
      interval_cases i
      · exact ⟨errTransport, rfl, by decide⟩
      · exact ⟨errTransport, rfl, by decide⟩)
    (some "ok") rfl).2

/-- C3, as amended: for every `maxRetries ≥ 1`, if the first result of the wrapped handler
is a coded error with a code from 400 to 499, then `retry.Do` calls the handler exactly once
and returns a nil response with that very error, whatever the value of `maxRetries ≥ 1`. -/
theorem C3_client_error_on_first_call (retries : Histogram μ) (r : retry Ctx Req Resp η ℓ)
    (ctx : Ctx) (req : Req) (w : World Ctx Req Resp η ℓ μ) (hmax : 1 ≤ r.maxRetries)
    (resp : Option Resp) (code : Int) (body : String) (h4 : 400 ≤ code ∧ code ≤ 499)
    (hfirst : Handler.outcome r.next ctx req w.next 0 =
      (resp, some (Error.coded { Code := code, Body := body }))) :
    callsOf (r.events retries ctx req w) =
        [(ctx, req, (resp, some (Error.coded { Code := code, Body := body })))] ∧
      (callsOf (r.events retries ctx req w)).length = 1 ∧
      (r.Do retries ctx req w).1 =
        (none, some (Error.coded { Code := code, Body := body })) := by
  have hnot : retryableFailure (Handler.outcome r.next ctx req w.next 0) = false := by
    rw [hfirst]
    have := retryable_coded { Code := code, Body := body }
    simp only [retryableFailure]
    rw [Bool.eq_false_iff]
    intro h
    have := this.1 h
    simp only at this
    omega
  obtain ⟨h1, h2⟩ := retry.Do_stop retries r ctx req w 0 (by simpa using hmax)
    (fun i hi => by omega) hnot
  rw [hfirst] at h2
  refine ⟨?_, ?_, h2⟩
  · rw [h1]; simp [List.range_succ, hfirst]
  · rw [h1]; simp

/-- Witness of C3 as amended: a budget of five against a handler that always returns 404:
one call, and the 404 is returned. -/
theorem C3_witness :
    callsOf ((scriptedRetry 5 [] (none, some (errCode 404))).events
        nopHistogram () "q" emptyWorld) = [((), "q", (none, some (errCode 404)))] ∧
      ((scriptedRetry 5 [] (none, some (errCode 404))).Do nopHistogram () "q" emptyWorld).1 =
        (none, some (errCode 404)) := by
  obtain ⟨h1, -, h2⟩ := C3_client_error_on_first_call nopHistogram
    (scriptedRetry 5 [] (none, some (errCode 404))) () "q" emptyWorld (by decide)
    none 404 "" (by decide) rfl
  exact ⟨h1, h2⟩

/-- Counterexample to C3 as stated: with `maxRetries = 0` and a handler whose first result
is the coded error 404, `retry.Do` does not call the handler once but not at all, and it
returns the 500 error built after the loop, not the 404. -/
theorem C3_counterexample :
    Handler.outcome (scriptedRetry 0 [] (none, some (errCode 404))).next () "q"
        emptyWorld.next 0 = (none, some (errCode 404)) ∧
      callsOf ((scriptedRetry 0 [] (none, some (errCode 404))).events
        nopHistogram () "q" emptyWorld) = [] ∧
      ((scriptedRetry 0 [] (none, some (errCode 404))).Do nopHistogram () "q" emptyWorld).1 =
        (none, some (Error.coded { Code := 500, Body := "Query failed after 0 retries." })) ∧
      ¬ ((callsOf ((scriptedRetry 0 [] (none, some (errCode 404))).events
            nopHistogram () "q" emptyWorld)).length = 1 ∧
          ((scriptedRetry 0 [] (none, some (errCode 404))).Do
            nopHistogram () "q" emptyWorld).1 = (none, some (errCode 404))) := by
  have hDo := retry.Do_nonpositive nopHistogram (scriptedRetry 0 [] (none, some (errCode 404)))
    () "q" emptyWorld (by decide)
  have hcalls : callsOf ((scriptedRetry 0 [] (none, some (errCode 404))).events
      nopHistogram () "q" emptyWorld) = [] := by
    rw [retry.calls_eq]
    have hc : callsMade (Handler.outcome (scriptedRetry 0 [] (none, some (errCode 404))).next
        () "q" emptyWorld.next) (scriptedRetry 0 [] (none, some (errCode 404))).maxRetries.toNat
        = 0 := by decide
    rw [hc]
    rfl
  refine ⟨rfl, hcalls, ?_, ?_⟩
  · rw [hDo]
    decide
  · rw [hcalls]
    intro h
    exact absurd h.1 (by decide)

/-- C4: the classification that `retry.Do` applies to a handler error.  Take any handler
call of an invocation that returned an error `e` and that is followed by at least one more
iteration of the budget.  The handler is called again if and only if `e` is uncoded or is
coded with a code whose quotient by 100 (rounded towards zero) is 5, which is the same as a
code from 500 to 599.  In every other case that call is the last one and `retry.Do` returns
a nil response with `e`. -/
theorem C4_retry_classification (retries : Histogram μ) (r : retry Ctx Req Resp η ℓ)
    (ctx : Ctx) (req : Req) (w : World Ctx Req Resp η ℓ μ) (k : Nat)
    (hbudget : (k : Int) + 2 ≤ r.maxRetries) (c : Ctx) (q : Req) (resp : Option Resp)
    (e : Error)
    (hcall : (callsOf (r.events retries ctx req w))[k]? = some (c, q, (resp, some e))) :
    (k + 2 ≤ (callsOf (r.events retries ctx req w)).length ↔
        (httpgrpc.HTTPResponseFromError e = none ∨
          ∃ h, httpgrpc.HTTPResponseFromError e = some h ∧ h.Code.tdiv 100 = 5)) ∧
      (k + 2 ≤ (callsOf (r.events retries ctx req w)).length ↔
        (httpgrpc.HTTPResponseFromError e = none ∨
          ∃ h, httpgrpc.HTTPResponseFromError e = some h ∧ 500 ≤ h.Code ∧ h.Code ≤ 599)) ∧
      (¬ k + 2 ≤ (callsOf (r.events retries ctx req w)).length →
        (callsOf (r.events retries ctx req w)).length = k + 1 ∧
          (r.Do retries ctx req w).1 = (none, some e)) := by
  obtain ⟨hk, hx⟩ := retry.call_at retries r ctx req w k _ hcall
  simp only [Prod.mk.injEq] at hx
  obtain ⟨-, -, ho⟩ := hx
  have hrf : retryableFailure (Handler.outcome r.next ctx req w.next k) = retryable e := by
    rw [← ho]
    rfl
  have hiff : k + 2 ≤ (callsOf (r.events retries ctx req w)).length ↔ retryable e = true := by
    rw [retry.calls_length]
    constructor
    · intro h
      rw [← hrf]
      exact callsMade_prefix r.maxRetries.toNat _ k (by omega)
    · intro h
      by_contra hlt
      have hlast := callsMade_last r.maxRetries.toNat
        (Handler.outcome r.next ctx req w.next) (by omega)
      have hck : callsMade (Handler.outcome r.next ctx req w.next) r.maxRetries.toNat - 1 = k := by
        omega
      rw [hck, hrf, h] at hlast
      cases hlast
  refine ⟨hiff.trans (retryable_iff e), ?_, ?_⟩
  · rw [hiff, retryable_iff]
    simp only [tdiv_hundred_eq_five_iff]
  · intro hnot
    have hlen : (callsOf (r.events retries ctx req w)).length = k + 1 := by
      rw [retry.calls_length] at hnot ⊢
      omega
    refine ⟨hlen, ?_⟩
    rw [retry.calls_length] at hlen
    rw [retry.Do_result, hlen]
    simp [finalResult, resultOf, ← ho]

/-- Witness of C4: a budget of three against a handler that fails with 503 and then always
with 600.  The 503 of the first call is followed by a second call; the 600 of the second
call is not followed by a third. -/
theorem C4_witness :
    (0 + 2 ≤ (callsOf ((scriptedRetry 3 [(none, some (errCode 503))]
        (none, some (errCode 600))).events nopHistogram () "q" emptyWorld)).length ↔
      (httpgrpc.HTTPResponseFromError (errCode 503) = none ∨
        ∃ h, httpgrpc.HTTPResponseFromError (errCode 503) = some h ∧
          500 ≤ h.Code ∧ h.Code ≤ 599)) :=
  (C4_retry_classification nopHistogram
    (scriptedRetry 3 [(none, some (errCode 503))] (none, some (errCode 600)))
    () "q" emptyWorld 0 (by decide) () "q" none (errCode 503)
    (by
      rw [retry.calls_eq]
      have hc : callsMade (Handler.outcome (scriptedRetry 3 [(none, some (errCode 503))]
          (none, some (errCode 600))).next () "q" emptyWorld.next)
          (scriptedRetry 3 [(none, some (errCode 503))]
            (none, some (errCode 600))).maxRetries.toNat = 2 := by decide
      rw [hc]
      rfl)).2.1

/-- C5: one invocation of `retry.Do` calls the wrapped handler at most `maxRetries` times,
and not at all when `maxRetries ≤ 0`; it makes at most `3 * maxRetries + 1` external calls
of any kind, so it returns as soon as each of them has returned. -/
theorem C5_at_most_maxRetries_calls (retries : Histogram μ) (r : retry Ctx Req Resp η ℓ)
    (ctx : Ctx) (req : Req) (w : World Ctx Req Resp η ℓ μ) :
    ((callsOf (r.events retries ctx req w)).length : Int) ≤ max r.maxRetries 0 ∧
      (r.maxRetries ≤ 0 → callsOf (r.events retries ctx req w) = []) ∧
      (r.events retries ctx req w).length ≤ 3 * r.maxRetries.toNat + 1 := by
  have hle := callsMade_le r.maxRetries.toNat (Handler.outcome r.next ctx req w.next)
  refine ⟨?_, ?_, ?_⟩
  · rw [retry.calls_length]
    omega
  · intro h
    apply List.eq_nil_of_length_eq_zero
    rw [retry.calls_length]
    omega
  · rw [retry.events_eq, List.length_append]
    have h1 := length_iterationEvents_le ctx req
      (callsMade (Handler.outcome r.next ctx req w.next) r.maxRetries.toNat) 0
      (Handler.outcome r.next ctx req w.next)
    have h2 := @length_finalEvents_le Ctx Req Resp r.maxRetries none
      (callsMade (Handler.outcome r.next ctx req w.next) r.maxRetries.toNat)
    have h3 : 3 * callsMade (Handler.outcome r.next ctx req w.next) r.maxRetries.toNat ≤
        3 * r.maxRetries.toNat := by omega
    omega

/-- C6: `retry.Do` returns a nil error exactly when the last handler call it made returned
a nil error, and then it returns the response of that call; whenever it returns a non-nil
error (also with the budget used up, and also without any call) the response is nil,
whatever response the failing call returned. -/
theorem C6_nil_error_only_from_last_call (retries : Histogram μ) (r : retry Ctx Req Resp η ℓ)
    (ctx : Ctx) (req : Req) (w : World Ctx Req Resp η ℓ μ) :
    ((r.Do retries ctx req w).1.2 = none ↔
        ∃ resp, (callsOf (r.events retries ctx req w)).getLast? =
          some (ctx, req, (resp, none))) ∧
      (∀ resp, (callsOf (r.events retries ctx req w)).getLast? =
          some (ctx, req, (resp, none)) → (r.Do retries ctx req w).1 = (resp, none)) ∧
      ((r.Do retries ctx req w).1.2 ≠ none → (r.Do retries ctx req w).1.1 = none) := by
  rw [retry.Do_result]
  cases hc : callsMade (Handler.outcome r.next ctx req w.next) r.maxRetries.toNat with
  | zero =>
    have hnil : callsOf (r.events retries ctx req w) = [] := by
      apply List.eq_nil_of_length_eq_zero
      rw [retry.calls_length, hc]
    simp [finalResult, hnil]
  | succ m =>
    rw [retry.calls_getLast retries r ctx req w m hc]
    simp only [finalResult, resultOf, Option.some.injEq, Prod.mk.injEq, true_and]
    cases ho : Handler.outcome r.next ctx req w.next m with
    | mk resp err =>
      cases err with
      | none => simp
      | some e => simp

/-- C7: the error that `retry.Do` returns is an error returned by one of the handler calls
of the invocation, or it is the error that `retry.Do` builds itself with `httpgrpc.Errorf`;
`retry.Do` calls `httpgrpc.Errorf` if and only if `maxRetries ≤ 0`, and then it returns the
error built.  With `maxRetries > 0` the returned error comes from a handler call. -/
theorem C7_error_provenance (retries : Histogram μ) (r : retry Ctx Req Resp η ℓ)
    (ctx : Ctx) (req : Req) (w : World Ctx Req Resp η ℓ μ) :
    (∀ e, (r.Do retries ctx req w).1.2 = some e →
        (∃ resp, (ctx, req, (resp, some e)) ∈ callsOf (r.events retries ctx req w)) ∨
        (e = httpgrpc.Errorf 500 ("Query failed after " ++ toString r.maxRetries ++ " retries.") ∧
          Event.Errorf 500 ("Query failed after " ++ toString r.maxRetries ++ " retries.") ∈
            r.events retries ctx req w)) ∧
      ((∃ code msg, Event.Errorf code msg ∈ r.events retries ctx req w) ↔
        r.maxRetries ≤ 0) ∧
      (r.maxRetries ≤ 0 → (r.Do retries ctx req w).1 =
        (none, some (httpgrpc.Errorf 500
          ("Query failed after " ++ toString r.maxRetries ++ " retries.")))) ∧
      (0 < r.maxRetries → ∀ e, (r.Do retries ctx req w).1.2 = some e →
        ∃ resp, (ctx, req, (resp, some e)) ∈ callsOf (r.events retries ctx req w)) := by
  have hzero := callsMade_eq_zero_iff r.maxRetries (Handler.outcome r.next ctx req w.next)
  have hfrom : ∀ m,
      callsMade (Handler.outcome r.next ctx req w.next) r.maxRetries.toNat = m + 1 →
      ∀ e, (r.Do retries ctx req w).1.2 = some e →
        ∃ resp, (ctx, req, (resp, some e)) ∈ callsOf (r.events retries ctx req w) := by
    intro m hc e he
    rw [retry.Do_result, hc] at he
    have hmem := List.mem_of_getLast?_eq_some (retry.calls_getLast retries r ctx req w m hc)
    refine ⟨(Handler.outcome r.next ctx req w.next m).1, ?_⟩
    have h2 : (Handler.outcome r.next ctx req w.next m).2 = some e := by
      simp only [finalResult, resultOf] at he
      cases ho : (Handler.outcome r.next ctx req w.next m).2 with
      | none => rw [ho] at he; cases he
      | some e2 => rw [ho] at he; exact he
    rw [← h2]
    exact hmem
  have hErrorf : (∃ code msg, Event.Errorf code msg ∈ r.events retries ctx req w) ↔
      r.maxRetries ≤ 0 := by
    rw [← hzero, retry.events_eq]
    constructor
    · rintro ⟨code, msg, hmem⟩
      rw [List.mem_append] at hmem
      rcases hmem with hmem | hmem
      · exact absurd hmem (not_Errorf_mem_iterationEvents ctx req code msg _ _ _)
      · unfold finalEvents at hmem
        split at hmem
        · next h => exact h.1
        · simp at hmem
    · intro hc
      exact ⟨500, "Query failed after " ++ toString r.maxRetries ++ " retries.", by
        rw [hc]; simp [iterationEvents, finalEvents]⟩
  refine ⟨?_, hErrorf, ?_, ?_⟩
  · intro e he
    cases hc : callsMade (Handler.outcome r.next ctx req w.next) r.maxRetries.toNat with
    | zero =>
      right
      rw [retry.Do_result, hc] at he
      simp only [finalResult, Option.getD_none, Option.some.injEq] at he
      refine ⟨he.symm, ?_⟩
      rw [retry.events_eq, hc]
      simp [iterationEvents, finalEvents]
    | succ m => exact Or.inl (hfrom m hc e he)
  · intro hle
    rw [retry.Do_result, hzero.2 hle]
    rfl
  · intro hpos e he
    cases hc : callsMade (Handler.outcome r.next ctx req w.next) r.maxRetries.toNat with
    | zero => exact absurd (hzero.1 hc) (by omega)
    | succ m => exact hfrom m hc e he

/-- C8: with `maxRetries ≤ 0`, `retry.Do` makes one external call only, the one of
`httpgrpc.Errorf` with status 500 and the message `Query failed after <maxRetries> retries.`:
the handler, the histogram and the logger are not called and their states are unchanged.
It returns a nil response with the error built, which is a coded error with status 500 and
that message. -/
theorem C8_nonpositive_budget (retries : Histogram μ) (r : retry Ctx Req Resp η ℓ)
    (ctx : Ctx) (req : Req) (w : World Ctx Req Resp η ℓ μ) (h : r.maxRetries ≤ 0) :
    r.Do retries ctx req w =
        ((none, some (httpgrpc.Errorf 500
            ("Query failed after " ++ toString r.maxRetries ++ " retries."))),
          { next := w.next, log := w.log, retries := w.retries,
            trace := w.trace ++
              [Event.Errorf 500 ("Query failed after " ++ toString r.maxRetries ++ " retries.")] }) ∧
      r.events retries ctx req w =
        [Event.Errorf 500 ("Query failed after " ++ toString r.maxRetries ++ " retries.")] ∧
      callsOf (r.events retries ctx req w) = [] ∧
      httpgrpc.HTTPResponseFromError (httpgrpc.Errorf 500
          ("Query failed after " ++ toString r.maxRetries ++ " retries.")) =
        some { Code := 500,
               Body := "Query failed after " ++ toString r.maxRetries ++ " retries." } := by
  have hDo : r.Do retries ctx req w =
      ((none, some (httpgrpc.Errorf 500
          ("Query failed after " ++ toString r.maxRetries ++ " retries."))),
        { next := w.next, log := w.log, retries := w.retries,
          trace := w.trace ++
            [Event.Errorf 500 ("Query failed after " ++ toString r.maxRetries ++ " retries.")] }) := by
    unfold retry.Do
    rw [retry.loop_exit retries r ctx req 0 none w (by omega)]
    rfl
  have hev : r.events retries ctx req w =
      [Event.Errorf 500 ("Query failed after " ++ toString r.maxRetries ++ " retries.")] := by
    unfold retry.events
    rw [hDo]
    simp
  refine ⟨hDo, hev, ?_, rfl⟩
  rw [hev]
  rfl

/-- Witness of C8: with `maxRetries = 0` the handler, here one that would succeed, is not
called, and the error returned is the 500 with the message for 0 retries. -/
theorem C8_witness :
    callsOf ((scriptedRetry 0 [] (some "ok", none)).events nopHistogram () "q" emptyWorld) = [] ∧
      ((scriptedRetry 0 [] (some "ok", none)).Do nopHistogram () "q" emptyWorld).1 =
        (none, some (Error.coded { Code := 500, Body := "Query failed after 0 retries." })) := by
  obtain ⟨h1, -, h3, -⟩ := C8_nonpositive_budget nopHistogram
    (scriptedRetry 0 [] (some "ok", none)) () "q" emptyWorld (by decide)
  refine ⟨h3, ?_⟩
  rw [h1]
  decide

/-- C9: with `maxRetries = N ≥ 1` and `1 ≤ k ≤ N`, if the first `k-1` calls of the handler
fail with retryable errors and call `k` fails with an error `e` that is not retryable, then
`retry.Do` makes exactly `k` calls and returns a nil response with `e`. -/
theorem C9_terminal_error_on_attempt_k (retries : Histogram μ) (r : retry Ctx Req Resp η ℓ)
    (ctx : Ctx) (req : Req) (w : World Ctx Req Resp η ℓ μ) (N k : Nat) (hk : 1 ≤ k)
    (hkN : k ≤ N) (hmax : r.maxRetries = N)
    (hfail : ∀ i, i < k - 1 →
      ∃ e, (Handler.outcome r.next ctx req w.next i).2 = some e ∧ retryable e = true)
    (resp : Option Resp) (e : Error)
    (hterm : Handler.outcome r.next ctx req w.next (k - 1) = (resp, some e))
    (hcoded : ∃ h, httpgrpc.HTTPResponseFromError e = some h ∧ h.Code.tdiv 100 ≠ 5) :
    callsOf (r.events retries ctx req w) =
        (List.range k).map (fun i => (ctx, req, Handler.outcome r.next ctx req w.next i)) ∧
      (callsOf (r.events retries ctx req w)).length = k ∧
      (r.Do retries ctx req w).1 = (none, some e) := by
  have hnot : retryable e = false := by
    obtain ⟨h, h1, h2⟩ := hcoded
    simp [retryable, h1, h2]
  obtain ⟨h1, h2⟩ := retry.Do_stop retries r ctx req w (k - 1) (by omega)
    (fun i hi => (retryableFailure_iff _).2 (hfail i hi))
    (by simp [retryableFailure, hterm, hnot])
  have hk1 : k - 1 + 1 = k := by omega
  rw [hk1] at h1
  refine ⟨h1, by simp [h1], ?_⟩
  rw [h2, hterm]
  rfl

/-- Witness of C9: a budget of four against a handler that fails with 500, with an uncoded
error and then with 404: three calls, and the 404 is returned, not the earlier errors. -/
theorem C9_witness :
    (callsOf ((scriptedRetry 4 [(none, some (errCode 500)), (none, some errTransport)]
        (some "half", some (errCode 404))).events nopHistogram () "q" emptyWorld)).length = 3 ∧
      ((scriptedRetry 4 [(none, some (errCode 500)), (none, some errTransport)]
        (some "half", some (errCode 404))).Do nopHistogram () "q" emptyWorld).1 =
          (none, some (errCode 404)) :=
  (C9_terminal_error_on_attempt_k nopHistogram
    (scriptedRetry 4 [(none, some (errCode 500)), (none, some errTransport)]
      (some "half", some (errCode 404)))
    () "q" emptyWorld 4 3 (by decide) (by decide) rfl
    (by
      intro i hi
      have hi2 : i < 2 := hi
      interval_cases i
      · exact ⟨errCode 500, rfl, by decide⟩
      · exact ⟨errTransport, rfl, by decide⟩)
    (some "half") (errCode 404) rfl
    ⟨{ Code := 404, Body := "" }, rfl, by decide⟩).2

/-- C10: take two runs of `retry.Do` with the same `maxRetries` whose handlers give results
that agree position by position, except that a failure which is uncoded in one run may be a
coded 5xx error in the other.  Both runs make the same number of handler calls; what each
returns is decided by its call at the same position; and one returns a nil error exactly
when the other does, in which case both return the same response. -/
theorem C10_server_error_like_uncoded {η2 ℓ2 μ2 : Type} (retries : Histogram μ)
    (retries2 : Histogram μ2) (r : retry Ctx Req Resp η ℓ) (r2 : retry Ctx Req Resp η2 ℓ2)
    (ctx : Ctx) (req : Req) (w : World Ctx Req Resp η ℓ μ) (w2 : World Ctx Req Resp η2 ℓ2 μ2)
    (hmax : r.maxRetries = r2.maxRetries)
    (hagree : ∀ i, sameUpToCoding (Handler.outcome r.next ctx req w.next i)
      (Handler.outcome r2.next ctx req w2.next i)) :
    (callsOf (r.events retries ctx req w)).length =
        (callsOf (r2.events retries2 ctx req w2)).length ∧
      (∀ j, (callsOf (r.events retries ctx req w)).length = j + 1 →
        (r.Do retries ctx req w).1 = resultOf (Handler.outcome r.next ctx req w.next j) ∧
        (r2.Do retries2 ctx req w2).1 = resultOf (Handler.outcome r2.next ctx req w2.next j)) ∧
      ((callsOf (r.events retries ctx req w)).length = 0 →
        (r.Do retries ctx req w).1 = (r2.Do retries2 ctx req w2).1) ∧
      ((r.Do retries ctx req w).1.2 = none ↔ (r2.Do retries2 ctx req w2).1.2 = none) ∧
      ((r.Do retries ctx req w).1.2 = none →
        (r.Do retries ctx req w).1 = (r2.Do retries2 ctx req w2).1) := by
  have hc : callsMade (Handler.outcome r.next ctx req w.next) r.maxRetries.toNat =
      callsMade (Handler.outcome r2.next ctx req w2.next) r2.maxRetries.toNat := by
    rw [hmax]
    exact callsMade_congr _ _ _
      (fun i _ => sameUpToCoding_retryableFailure _ _ (hagree i))
  rw [retry.calls_length, retry.calls_length, retry.Do_result, retry.Do_result, ← hc, ← hmax]
  refine ⟨rfl, ?_, ?_, ?_⟩
  · intro j hj
    rw [hj]
    exact ⟨rfl, rfl⟩
  · intro h0
    rw [h0]
    rfl
  · cases hcm : callsMade (Handler.outcome r.next ctx req w.next) r.maxRetries.toNat with
    | zero => exact ⟨Iff.rfl, fun _ => rfl⟩
    | succ j => exact sameUpToCoding_resultOf _ _ (hagree j)

/-- Witness of C10: a budget of three against a handler that fails with an uncoded error and
then succeeds, and against one that fails with 503 and then succeeds: both runs return the
success. -/
theorem C10_witness :
    ((scriptedRetry 3 [(none, some errTransport)] (some "ok", none)).Do
        nopHistogram () "q" emptyWorld).1 =
      ((scriptedRetry 3 [(none, some (errCode 503))] (some "ok", none)).Do
        nopHistogram () "q" emptyWorld).1 := by
  obtain ⟨-, h2, -, -, h5⟩ := C10_server_error_like_uncoded nopHistogram nopHistogram
    (scriptedRetry 3 [(none, some errTransport)] (some "ok", none))
    (scriptedRetry 3 [(none, some (errCode 503))] (some "ok", none))
    () "q" emptyWorld emptyWorld rfl
    (by
      intro i
      cases i with
      | zero => exact Or.inr ⟨rfl, errTransport, errCode 503, rfl, rfl, by decide⟩
      | succ i =>
        left
        show Handler.outcome (scripted [(none, some errTransport)] (some "ok", none)) () "q" 0
            (i + 1) =
          Handler.outcome (scripted [(none, some (errCode 503))] (some "ok", none)) () "q" 0
            (i + 1)
        rw [outcome_scripted, outcome_scripted]
        simp)
  apply h5
  have hlen : (callsOf ((scriptedRetry 3 [(none, some errTransport)] (some "ok", none)).events
      nopHistogram () "q" emptyWorld)).length = 1 + 1 := by
    rw [retry.calls_length]
    decide
  rw [(h2 1 hlen).1]
  rfl

/-- C11, as amended: with `maxRetries = 2` and a handler whose calls all return a coded error
with code 503, `retry.Do` makes 2 calls, returns the error of the second call, emits 2
error log lines (for try 0 and for try 1, each with the error of its call) and records the
2 observations 0 and 1. -/
theorem C11_always_503_budget_two (retries : Histogram μ) (r : retry Ctx Req Resp η ℓ)
    (ctx : Ctx) (req : Req) (w : World Ctx Req Resp η ℓ μ) (hmax : r.maxRetries = 2)
    (h503 : ∀ i, ∃ resp body, Handler.outcome r.next ctx req w.next i =
      (resp, some (Error.coded { Code := 503, Body := body }))) :
    (callsOf (r.events retries ctx req w)).length = 2 ∧
      (∃ e0 e1, (Handler.outcome r.next ctx req w.next 0).2 = some e0 ∧
        (Handler.outcome r.next ctx req w.next 1).2 = some e1 ∧
        (r.Do retries ctx req w).1 = (none, some e1) ∧
        logsOf (r.events retries ctx req w) = [logLine 0 e0, logLine 1 e1]) ∧
      observationsOf (r.events retries ctx req w) = [0, 1] := by
  obtain ⟨resp0, body0, h0⟩ := h503 0
  obtain ⟨resp1, body1, h1⟩ := h503 1
  have hr : ∀ body, retryable (Error.coded { Code := 503, Body := body }) = true := by
    intro body
    exact (retryable_coded _).2 ⟨by simp, by simp⟩
  have hc : callsMade (Handler.outcome r.next ctx req w.next) r.maxRetries.toNat = 2 := by
    rw [hmax]
    apply callsMade_all 2
    intro i hi
    obtain ⟨resp, body, h⟩ := h503 i
    simp [retryableFailure, h, hr]
  refine ⟨by rw [retry.calls_length, hc], ?_, ?_⟩
  · refine ⟨_, _, by rw [h0], by rw [h1], ?_, ?_⟩
    · rw [retry.Do_result, hc]
      simp [finalResult, resultOf, h1]
    · rw [retry.logs_eq, hc]
      simp [List.range_succ, retryLog, h0, h1, hr]
  · rw [retry.observations_eq, hc]
    simp [List.range_succ]

/-- Witness of C11 as amended: the handler that always returns 503 with an empty body. -/
theorem C11_witness :
    (callsOf ((scriptedRetry 2 [] (none, some (errCode 503))).events
        nopHistogram () "q" emptyWorld)).length = 2 ∧
      observationsOf ((scriptedRetry 2 [] (none, some (errCode 503))).events
        nopHistogram () "q" emptyWorld) = [0, 1] := by
  obtain ⟨h1, -, h3⟩ := C11_always_503_budget_two nopHistogram
    (scriptedRetry 2 [] (none, some (errCode 503))) () "q" emptyWorld rfl
    (by
      intro i
      refine ⟨none, "", ?_⟩
      show Handler.outcome (scripted [] (none, some (errCode 503))) () "q" 0 i = _
      rw [outcome_scripted]
      rfl)
  exact ⟨h1, h3⟩

/-- Counterexample to C11 as stated: with `maxRetries = 2` and a handler that always returns
503, two error log lines are emitted, one for try 0 and one for try 1, not one. -/
theorem C11_counterexample :
    logsOf ((scriptedRetry 2 [] (none, some (errCode 503))).events
        nopHistogram () "q" emptyWorld) =
        [logLine 0 (errCode 503), logLine 1 (errCode 503)] ∧
      ¬ (logsOf ((scriptedRetry 2 [] (none, some (errCode 503))).events
        nopHistogram () "q" emptyWorld) = [logLine 0 (errCode 503)]) := by
  have hc : callsMade (Handler.outcome (scriptedRetry 2 [] (none, some (errCode 503))).next
      () "q" emptyWorld.next) (scriptedRetry 2 [] (none, some (errCode 503))).maxRetries.toNat
      = 2 := by decide
  have hlogs : logsOf ((scriptedRetry 2 [] (none, some (errCode 503))).events
      nopHistogram () "q" emptyWorld) =
      [logLine 0 (errCode 503), logLine 1 (errCode 503)] := by
    rw [retry.logs_eq, hc]
    decide
  refine ⟨hlogs, ?_⟩
  rw [hlogs]
  decide

/-- C12: the observations recorded during one invocation of `retry.Do` are exactly
`0, 1, ..., c-1`, where `c` is the number of handler calls made; the observations and the
handler calls alternate, observation `i` coming right before call number `i`. -/
theorem C12_observations_are_attempt_indices (retries : Histogram μ)
    (r : retry Ctx Req Resp η ℓ) (ctx : Ctx) (req : Req) (w : World Ctx Req Resp η ℓ μ) :
    observationsOf (r.events retries ctx req w) =
        (List.range (callsOf (r.events retries ctx req w)).length).map
          (fun i : Nat => (i : Int)) ∧
      (observationsOf (r.events retries ctx req w)).length =
        (callsOf (r.events retries ctx req w)).length ∧
      (r.events retries ctx req w).filter Event.isObserveOrDo =
        (List.range (callsOf (r.events retries ctx req w)).length).flatMap
          (fun i : Nat => [Event.Observe (i : Int),
            Event.Do ctx req (Handler.outcome r.next ctx req w.next i).1
              (Handler.outcome r.next ctx req w.next i).2]) := by
  rw [retry.calls_length, retry.observations_eq, retry.attempts_eq]
  exact ⟨rfl, by simp, rfl⟩

/-- C13: the error log lines emitted during one invocation of `retry.Do` are, in call
order, one line for each handler call that failed with a retryable error, with the index of
that call (counted from 0) and its error, at level error; a call that succeeded or failed
with an error that is not retryable has no line.  So an error that is not retryable on the
first call leaves no line at all. -/
theorem C13_log_lines (retries : Histogram μ) (r : retry Ctx Req Resp η ℓ) (ctx : Ctx)
    (req : Req) (w : World Ctx Req Resp η ℓ μ) :
    logsOf (r.events retries ctx req w) =
        (List.range (callsOf (r.events retries ctx req w)).length).filterMap
          (fun i : Nat =>
            match (Handler.outcome r.next ctx req w.next i).2 with
            | some err =>
              if retryable err then
                some [Value.str "level", Value.str "error",
                  Value.str "msg", Value.str "error processing request",
                  Value.str "try", Value.int (i : Int), Value.str "err", Value.err err]
              else none
            | none => none) ∧
      (∀ resp err, Handler.outcome r.next ctx req w.next 0 = (resp, some err) →
        retryable err = false → logsOf (r.events retries ctx req w) = []) := by
  refine ⟨?_, ?_⟩
  · rw [retry.calls_length, retry.logs_eq]
    rfl
  · intro resp err h0 hnot
    rw [retry.logs_eq]
    have hc : callsMade (Handler.outcome r.next ctx req w.next) r.maxRetries.toNat ≤ 1 := by
      cases hn : r.maxRetries.toNat with
      | zero => simp [callsMade]
      | succ n => simp [callsMade, retryableFailure, h0, hnot]
    have hcases : callsMade (Handler.outcome r.next ctx req w.next) r.maxRetries.toNat = 0 ∨
        callsMade (Handler.outcome r.next ctx req w.next) r.maxRetries.toNat = 1 := by omega
    rcases hcases with hz | ho
    · rw [hz]; rfl
    · rw [ho]
      simp [List.range_succ, retryLog, h0, hnot]

/-- C14, as amended: for every `maxRetries ≤ 0` the loop body of `retry.Do` never runs: the
handler, the histogram and the logger are not called, and `retry.Do` returns a nil response
with the 500 error whose message states the configured `maxRetries`,
`Query failed after <maxRetries> retries.`; the message states 0 retries when
`maxRetries = 0`. -/
theorem C14_nonpositive_budget_message (retries : Histogram μ) (r : retry Ctx Req Resp η ℓ)
    (ctx : Ctx) (req : Req) (w : World Ctx Req Resp η ℓ μ) (h : r.maxRetries ≤ 0) :
    (r.Do retries ctx req w).1 =
        (none, some (httpgrpc.Errorf 500
          ("Query failed after " ++ toString r.maxRetries ++ " retries."))) ∧
      httpgrpc.Errorf 500 ("Query failed after " ++ toString r.maxRetries ++ " retries.") =
        Error.coded
          { Code := 500, Body := "Query failed after " ++ toString r.maxRetries ++ " retries." } ∧
      r.events retries ctx req w =
        [Event.Errorf 500 ("Query failed after " ++ toString r.maxRetries ++ " retries.")] ∧
      callsOf (r.events retries ctx req w) = [] ∧
      observationsOf (r.events retries ctx req w) = [] ∧
      logsOf (r.events retries ctx req w) = [] ∧
      (r.Do retries ctx req w).2.next = w.next ∧
      (r.maxRetries = 0 → (r.Do retries ctx req w).1 =
        (none, some (Error.coded { Code := 500, Body := "Query failed after 0 retries." }))) := by
  have hDo : r.Do retries ctx req w =
      ((none, some (httpgrpc.Errorf 500
          ("Query failed after " ++ toString r.maxRetries ++ " retries."))),
        { next := w.next, log := w.log, retries := w.retries,
          trace := w.trace ++
            [Event.Errorf 500 ("Query failed after " ++ toString r.maxRetries ++ " retries.")] }) := by
    unfold retry.Do
    rw [retry.loop_exit retries r ctx req 0 none w (by omega)]
    rfl
  have hev : r.events retries ctx req w =
      [Event.Errorf 500 ("Query failed after " ++ toString r.maxRetries ++ " retries.")] := by
    unfold retry.events
    rw [hDo]
    simp
  refine ⟨by rw [hDo], rfl, hev, by rw [hev]; rfl, by rw [hev]; rfl, by rw [hev]; rfl,
    by rw [hDo], ?_⟩
  intro h0
  have hmsg : "Query failed after " ++ toString (0 : Int) ++ " retries." =
      "Query failed after 0 retries." := by decide
  rw [hDo, h0, hmsg]
  rfl

/-- Witness of C14 as amended: with `maxRetries = -3` the handler is not called and the
message states -3 retries. -/
theorem C14_witness :
    ((scriptedRetry (-3) [] (some "ok", none)).Do nopHistogram () "q" emptyWorld).1 =
        (none, some (Error.coded { Code := 500, Body := "Query failed after -3 retries." })) ∧
      callsOf ((scriptedRetry (-3) [] (some "ok", none)).events
        nopHistogram () "q" emptyWorld) = [] := by
  obtain ⟨h1, -, -, h3, -⟩ := C14_nonpositive_budget_message nopHistogram
    (scriptedRetry (-3) [] (some "ok", none)) () "q" emptyWorld (by decide)
  refine ⟨?_, h3⟩
  rw [h1]
  decide

/-- Counterexample to C14 as stated: with `maxRetries = -3` the error that `retry.Do`
returns has the message for -3 retries, not the one for 0 retries. -/
theorem C14_counterexample :
    ((scriptedRetry (-3) [] (some "ok", none)).Do nopHistogram () "q" emptyWorld).1 =
        (none, some (Error.coded { Code := 500, Body := "Query failed after -3 retries." })) ∧
      ((scriptedRetry (-3) [] (some "ok", none)).Do nopHistogram () "q" emptyWorld).1 ≠
        (none, some (Error.coded { Code := 500, Body := "Query failed after 0 retries." })) := by
  have hDo : ((scriptedRetry (-3) [] (some "ok", none)).Do nopHistogram () "q" emptyWorld).1 =
      (none, some (Error.coded { Code := 500, Body := "Query failed after -3 retries." })) := by
    unfold retry.Do
    rw [retry.loop_exit nopHistogram _ () "q" 0 none emptyWorld (by decide)]
    decide
  refine ⟨hDo, ?_⟩
  rw [hDo]
  decide

/-- C15: the logger and the histogram do not steer `retry.Do`.  Run the same handler from
the same state with the same `maxRetries`, once with one logger and one histogram and once
with any other logger and histogram, whatever their `Log` returns and whatever they store:
both runs return the same value, make the same handler calls in the same order and leave
the handler in the same state. -/
theorem C15_observability_does_not_steer {ℓ2 μ2 : Type} (retries : Histogram μ)
    (retries2 : Histogram μ2) (log : Logger ℓ) (log2 : Logger ℓ2) (maxRetries : Int)
    (next : Handler Ctx Req Resp η) (ctx : Ctx) (req : Req) (s : η) (l : ℓ) (l2 : ℓ2)
    (m : μ) (m2 : μ2) (t t2 : List (Event Ctx Req Resp)) :
    ((NewRetryMiddleware log maxRetries next).Do retries ctx req
          { next := s, log := l, retries := m, trace := t }).1 =
        ((NewRetryMiddleware log2 maxRetries next).Do retries2 ctx req
          { next := s, log := l2, retries := m2, trace := t2 }).1 ∧
      callsOf ((NewRetryMiddleware log maxRetries next).events retries ctx req
          { next := s, log := l, retries := m, trace := t }) =
        callsOf ((NewRetryMiddleware log2 maxRetries next).events retries2 ctx req
          { next := s, log := l2, retries := m2, trace := t2 }) ∧
      ((NewRetryMiddleware log maxRetries next).Do retries ctx req
          { next := s, log := l, retries := m, trace := t }).2.next =
        ((NewRetryMiddleware log2 maxRetries next).Do retries2 ctx req
          { next := s, log := l2, retries := m2, trace := t2 }).2.next := by
  refine ⟨?_, ?_, ?_⟩
  · rw [retry.Do_result, retry.Do_result]
    rfl
  · rw [retry.calls_eq, retry.calls_eq]
    rfl
  · rw [retry.Do_next, retry.Do_next]
    rfl

/-- C16: every handler call of an invocation of `retry.Do` receives the context and the
request that were passed to `retry.Do`.  The configuration is used as it is throughout: the
calls are the successive calls of `r.next` with that context and request, the handler ends
in the state these calls leave, the log lines have all gone to `r.log`, and the number of
calls is within `r.maxRetries`. -/
theorem C16_same_context_and_request (retries : Histogram μ) (r : retry Ctx Req Resp η ℓ)
    (ctx : Ctx) (req : Req) (w : World Ctx Req Resp η ℓ μ) :
    (∀ x, x ∈ callsOf (r.events retries ctx req w) → x.1 = ctx ∧ x.2.1 = req) ∧
      callsOf (r.events retries ctx req w) =
        (List.range (callsOf (r.events retries ctx req w)).length).map
          (fun i => (ctx, req, Handler.outcome r.next ctx req w.next i)) ∧
      (r.Do retries ctx req w).2.next =
        Handler.stateAfter r.next ctx req (callsOf (r.events retries ctx req w)).length w.next ∧
      (r.Do retries ctx req w).2.log =
        (logsOf (r.events retries ctx req w)).foldl (fun st line => (r.log line st).2) w.log ∧
      ((callsOf (r.events retries ctx req w)).length : Int) ≤ max r.maxRetries 0 := by
  have hcalls := retry.calls_eq retries r ctx req w
  have hle := callsMade_le r.maxRetries.toNat (Handler.outcome r.next ctx req w.next)
  refine ⟨?_, ?_, ?_, (retry.Do_collaborators retries r ctx req w).1, ?_⟩
  · intro x hx
    rw [hcalls, List.mem_map] at hx
    obtain ⟨i, -, rfl⟩ := hx
    exact ⟨rfl, rfl⟩
  · rw [retry.calls_length]
    exact hcalls
  · rw [retry.calls_length]
    exact retry.Do_next retries r ctx req w
  · rw [retry.calls_length]
    omega

/-- C17: the full behaviour of `retry.Do` with `maxRetries = N ≥ 1` on the handler results
`o 0, o 1, ...`.  Let `j` (counted from 1) be the position of the first result that is not a
failure with a retryable error, or `N` if there is none among the first `N`.  Then
`retry.Do` makes exactly `j` calls and returns what result `j` alone decides: its response
with a nil error if its error is nil, a nil response with its error otherwise.  Such a `j`
exists, and two runs whose handlers agree on the first `N` results return the same. -/
theorem C17_full_characterisation {η2 ℓ2 μ2 : Type} (retries : Histogram μ)
    (r : retry Ctx Req Resp η ℓ) (ctx : Ctx) (req : Req) (w : World Ctx Req Resp η ℓ μ)
    (N : Nat) (hN : 1 ≤ N) (hmax : r.maxRetries = N) :
    (∀ j, 1 ≤ j → j ≤ N →
        (∀ i, i + 1 < j → retryableFailure (Handler.outcome r.next ctx req w.next i) = true) →
        (retryableFailure (Handler.outcome r.next ctx req w.next (j - 1)) = false ∨ j = N) →
        callsOf (r.events retries ctx req w) =
            (List.range j).map (fun i => (ctx, req, Handler.outcome r.next ctx req w.next i)) ∧
          (callsOf (r.events retries ctx req w)).length = j ∧
          (r.Do retries ctx req w).1 = resultOf (Handler.outcome r.next ctx req w.next (j - 1)) ∧
          (r.Do retries ctx req w).1 =
            (match (Handler.outcome r.next ctx req w.next (j - 1)).2 with
             | none => ((Handler.outcome r.next ctx req w.next (j - 1)).1, none)
             | some err => (none, some err))) ∧
      (∃ j, 1 ≤ j ∧ j ≤ N ∧
        (∀ i, i + 1 < j → retryableFailure (Handler.outcome r.next ctx req w.next i) = true) ∧
        (retryableFailure (Handler.outcome r.next ctx req w.next (j - 1)) = false ∨ j = N)) ∧
      (∀ (retries2 : Histogram μ2) (r2 : retry Ctx Req Resp η2 ℓ2)
          (w2 : World Ctx Req Resp η2 ℓ2 μ2), r2.maxRetries = N →
        (∀ i, i < N → Handler.outcome r2.next ctx req w2.next i =
          Handler.outcome r.next ctx req w.next i) →
        (r2.Do retries2 ctx req w2).1 = (r.Do retries ctx req w).1 ∧
          (callsOf (r2.events retries2 ctx req w2)).length =
            (callsOf (r.events retries ctx req w)).length) := by
  have htoNat : r.maxRetries.toNat = N := by rw [hmax, Int.toNat_ofNat]
  refine ⟨?_, ?_, ?_⟩
  · intro j hj1 hjN hall hstop
    have hc : callsMade (Handler.outcome r.next ctx req w.next) r.maxRetries.toNat = j := by
      rw [htoNat]
      rcases hstop with hstop | hjeq
      · have := callsMade_stop N (Handler.outcome r.next ctx req w.next) (j - 1) (by omega)
          (fun i hi => hall i (by omega)) hstop
        omega
      · have h1 := callsMade_gt N (Handler.outcome r.next ctx req w.next) (j - 1) (by omega)
          (fun i hi => hall i (by omega))
        have h2 := callsMade_le N (Handler.outcome r.next ctx req w.next)
        omega
    have hres : (r.Do retries ctx req w).1 =
        resultOf (Handler.outcome r.next ctx req w.next (j - 1)) := by
      rw [retry.Do_result, hc]
      obtain ⟨k, rfl⟩ : ∃ k, j = k + 1 := ⟨j - 1, by omega⟩
      rfl
    refine ⟨?_, ?_, hres, ?_⟩
    · rw [retry.calls_eq, hc]
    · rw [retry.calls_length, hc]
    · rw [hres]
      rfl
  · refine ⟨callsMade (Handler.outcome r.next ctx req w.next) N, callsMade_pos N (by omega) _,
      callsMade_le N _, fun i hi => callsMade_prefix N _ i hi, ?_⟩
    by_cases hlt : callsMade (Handler.outcome r.next ctx req w.next) N < N
    · exact Or.inl (callsMade_last N _ hlt)
    · have := callsMade_le N (Handler.outcome r.next ctx req w.next)
      exact Or.inr (by omega)
  · intro retries2 r2 w2 hmax2 hsame
    have htoNat2 : r2.maxRetries.toNat = N := by rw [hmax2, Int.toNat_ofNat]
    refine ⟨?_, ?_⟩
    · rw [retry.Do_result, retry.Do_result, htoNat, htoNat2, hmax, hmax2]
      exact finalResult_congr _ N _ _ hsame
    · rw [retry.calls_length, retry.calls_length, htoNat, htoNat2]
      exact callsMade_congr N _ _ (fun i hi => by rw [hsame i hi])

/-- Witness of C17: a budget of three against a handler that fails with an uncoded error and
then returns 404: the second result is the first that is not a retryable failure, so there
are two calls and the 404 is returned. -/
theorem C17_witness :
    (callsOf ((scriptedRetry 3 [(none, some errTransport)] (none, some (errCode 404))).events
        nopHistogram () "q" emptyWorld)).length = 2 ∧
      ((scriptedRetry 3 [(none, some errTransport)] (none, some (errCode 404))).Do
        nopHistogram () "q" emptyWorld).1 = (none, some (errCode 404)) := by
  obtain ⟨-, hlen, hres, -⟩ := (@C17_full_characterisation Unit String String Nat Unit Unit
    Nat Unit Unit nopHistogram
    (scriptedRetry 3 [(none, some errTransport)] (none, some (errCode 404)))
    () "q" emptyWorld 3 (by decide) rfl).1 2 (by decide) (by decide)
    (by
      intro i hi
      have hi0 : i = 0 := by omega
      subst hi0
      decide)
    (Or.inl (by decide))
  exact ⟨hlen, by rw [hres]; rfl⟩

/-- C18: raising the budget never loses a success or a terminal error.  Take two runs on
the same handler results with `maxRetries = N` and `maxRetries = N2`, `1 ≤ N ≤ N2`.  If the
run with `N` returns a nil error, or an error that is not retryable, then the run with `N2`
makes the same number of calls and returns the same value. -/
theorem C18_budget_monotone {η2 ℓ2 μ2 : Type} (retries : Histogram μ)
    (retries2 : Histogram μ2) (r : retry Ctx Req Resp η ℓ) (r2 : retry Ctx Req Resp η2 ℓ2)
    (ctx : Ctx) (req : Req) (w : World Ctx Req Resp η ℓ μ) (w2 : World Ctx Req Resp η2 ℓ2 μ2)
    (N N2 : Nat) (hN : 1 ≤ N) (hNN : N ≤ N2) (hmax : r.maxRetries = N)
    (hmax2 : r2.maxRetries = N2)
    (hsame : ∀ i, Handler.outcome r2.next ctx req w2.next i =
      Handler.outcome r.next ctx req w.next i)
    (hfinal : (r.Do retries ctx req w).1.2 = none ∨
      ∃ e, (r.Do retries ctx req w).1.2 = some e ∧ retryable e = false) :
    (callsOf (r2.events retries2 ctx req w2)).length =
        (callsOf (r.events retries ctx req w)).length ∧
      (r2.Do retries2 ctx req w2).1 = (r.Do retries ctx req w).1 ∧
      callsOf (r2.events retries2 ctx req w2) = callsOf (r.events retries ctx req w) := by
  have htoNat : r.maxRetries.toNat = N := by rw [hmax, Int.toNat_ofNat]
  have htoNat2 : r2.maxRetries.toNat = N2 := by rw [hmax2, Int.toNat_ofNat]
  have hfun : Handler.outcome r2.next ctx req w2.next = Handler.outcome r.next ctx req w.next :=
    funext hsame
  have hpos := callsMade_pos N (by omega) (Handler.outcome r.next ctx req w.next)
  have hle := callsMade_le N (Handler.outcome r.next ctx req w.next)
  obtain ⟨k, hk⟩ : ∃ k, callsMade (Handler.outcome r.next ctx req w.next) N = k + 1 :=
    ⟨callsMade (Handler.outcome r.next ctx req w.next) N - 1, by omega⟩
  have hres : (r.Do retries ctx req w).1 =
      resultOf (Handler.outcome r.next ctx req w.next k) := by
    rw [retry.Do_result, htoNat, hk]
    rfl
  have hstop : retryableFailure (Handler.outcome r.next ctx req w.next k) = false := by
    rw [hres] at hfinal
    unfold resultOf at hfinal
    unfold retryableFailure
    cases ho : (Handler.outcome r.next ctx req w.next k).2 with
    | none => rfl
    | some err =>
      rw [ho] at hfinal
      rcases hfinal with h | ⟨e, he, hne⟩
      · cases h
      · simp only [Option.some.injEq] at he
        subst he
        exact hne
  have hc2 : callsMade (Handler.outcome r.next ctx req w.next) N2 = k + 1 :=
    callsMade_stop N2 _ k (by omega)
      (fun i hi => callsMade_prefix N _ i (by omega)) hstop
  refine ⟨?_, ?_, ?_⟩
  · rw [retry.calls_length, retry.calls_length, htoNat, htoNat2, hfun, hk, hc2]
  · rw [hres, retry.Do_result, htoNat2, hfun, hc2]
    rfl
  · rw [retry.calls_eq, retry.calls_eq, htoNat, htoNat2, hfun, hk, hc2]

/-- Witness of C18: a handler that fails with 503 and then succeeds, run with a budget of
two and with a budget of five: both runs return the success of the second call. -/
theorem C18_witness :
    ((scriptedRetry 5 [(none, some (errCode 503))] (some "ok", none)).Do
        nopHistogram () "q" emptyWorld).1 =
      ((scriptedRetry 2 [(none, some (errCode 503))] (some "ok", none)).Do
        nopHistogram () "q" emptyWorld).1 :=
  (C18_budget_monotone nopHistogram nopHistogram
    (scriptedRetry 2 [(none, some (errCode 503))] (some "ok", none))
    (scriptedRetry 5 [(none, some (errCode 503))] (some "ok", none))
    () "q" emptyWorld emptyWorld 2 5 (by decide) (by decide) rfl rfl
    (fun _ => rfl)
    (Or.inl (by
      rw [retry.Do_result]
      decide))).2.1

/-- C19: retries multiply under composition.  Wrap a handler with `NewRetryMiddleware(_, M)`
and the result with `NewRetryMiddleware(_, N)`, `N ≥ 1`.  If `M ≥ 1` and the handler fails
with a retryable error on each of its first `N * M` calls, one invocation of the outer `Do`
calls the handler exactly `N * M` times and returns the error of the last of these calls.
If `M ≤ 0`, the 500 error that the inner decorator builds is retryable for the outer one,
which invokes the inner decorator `N` times, while the handler is never called. -/
theorem C19_retry_amplification {ℓ2 μ2 : Type} (retries : Histogram μ)
    (retries2 : Histogram μ2) (log : Logger ℓ) (log2 : Logger ℓ2)
    (next : Handler Ctx Req Resp η) (ctx : Ctx) (req : Req)
    (w : World Ctx Req Resp (World Ctx Req Resp η ℓ μ) ℓ2 μ2) (N : Nat) (hN : 1 ≤ N) :
    (∀ M : Nat, 1 ≤ M →
        (∀ i, i < N * M →
          ∃ e, (Handler.outcome next ctx req w.next.next i).2 = some e ∧ retryable e = true) →
        callsOf (((wrapTwice log2 N retries log M next).Do retries2 ctx req w).2.next.trace.drop
            w.next.trace.length) =
          (List.range (N * M)).map
            (fun i => (ctx, req, Handler.outcome next ctx req w.next.next i)) ∧
        (callsOf (((wrapTwice log2 N retries log M next).Do retries2 ctx req
            w).2.next.trace.drop w.next.trace.length)).length = N * M ∧
        (callsOf ((wrapTwice log2 N retries log M next).events retries2 ctx req w)).length = N ∧
        ∃ e, (Handler.outcome next ctx req w.next.next (N * M - 1)).2 = some e ∧
          ((wrapTwice log2 N retries log M next).Do retries2 ctx req w).1 = (none, some e)) ∧
      (∀ M : Int, M ≤ 0 →
        retryable (httpgrpc.Errorf 500
          ("Query failed after " ++ toString M ++ " retries.")) = true ∧
        (callsOf ((wrapTwice log2 N retries log M next).events retries2 ctx req w)).length = N ∧
        callsOf (((wrapTwice log2 N retries log M next).Do retries2 ctx req w).2.next.trace.drop
            w.next.trace.length) = [] ∧
        ((wrapTwice log2 N retries log M next).Do retries2 ctx req w).2.next.next =
          w.next.next ∧
        ((wrapTwice log2 N retries log M next).Do retries2 ctx req w).1 =
          (none, some (httpgrpc.Errorf 500
            ("Query failed after " ++ toString M ++ " retries.")))) := by
  obtain ⟨n, rfl⟩ : ∃ n, N = n + 1 := ⟨N - 1, by omega⟩
  refine ⟨?_, ?_⟩
  · intro M hM hfail
    have hall : ∀ i, i < (n + 1) * M → retryableFailure
        (Handler.outcome (NewRetryMiddleware log (M : Int) next).next ctx req w.next.next i) =
          true :=
      fun i hi => (retryableFailure_iff _).2 (hfail i hi)
    have hout := inner_all_fail_outcome retries (NewRetryMiddleware log (M : Int) next) ctx req
      w.next M hM rfl (n + 1) hall
    have hc : callsMade (Handler.outcome (wrapTwice log2 ((n + 1 : Nat) : Int) retries log
        (M : Int) next).next ctx req w.next)
        (wrapTwice log2 ((n + 1 : Nat) : Int) retries log (M : Int) next).maxRetries.toNat =
          n + 1 := by
      have hmax : (wrapTwice log2 ((n + 1 : Nat) : Int) retries log
          (M : Int) next).maxRetries.toNat = n + 1 := Int.toNat_ofNat (n + 1)
      rw [hmax]
      exact callsMade_all (n + 1) _ (fun k hk => (hout k hk).2)
    obtain ⟨-, D, hD, hcalls⟩ := inner_all_fail retries (NewRetryMiddleware log (M : Int) next)
      ctx req w.next M hM rfl (n + 1) hall (n + 1) (le_refl _)
    have hnext : ((wrapTwice log2 ((n + 1 : Nat) : Int) retries log (M : Int) next).Do
        retries2 ctx req w).2.next =
        Handler.stateAfter ((NewRetryMiddleware log (M : Int) next).Do retries) ctx req
          (n + 1) w.next := by
      rw [retry.Do_next, hc]
      rfl
    have hdrop : ((wrapTwice log2 ((n + 1 : Nat) : Int) retries log (M : Int) next).Do
        retries2 ctx req w).2.next.trace.drop w.next.trace.length = D := by
      rw [hnext, hD, List.drop_left]
    have hidx : (n + 1) * M - 1 = n * M + (M - 1) := by
      rw [Nat.add_mul, Nat.one_mul]
      omega
    refine ⟨?_, ?_, ?_, ?_⟩
    · rw [hdrop, hcalls]
      rfl
    · rw [hdrop, hcalls]
      simp
    · rw [retry.calls_length, hc]
    · obtain ⟨e, he, -⟩ := hfail ((n + 1) * M - 1) (by
        have : 0 < (n + 1) * M := Nat.mul_pos (by omega) (by omega)
        omega)
      refine ⟨e, he, ?_⟩
      rw [retry.Do_result, hc]
      have hlast := (hout n (by omega)).1
      rw [hidx] at he
      simp only [finalResult]
      have hdef : Handler.outcome (wrapTwice log2 ((n + 1 : Nat) : Int) retries log
          (M : Int) next).next ctx req w.next n =
          Handler.outcome ((NewRetryMiddleware log (M : Int) next).Do retries) ctx req
            w.next n := rfl
      rw [hdef, hlast]
      have he2 : (Handler.outcome (NewRetryMiddleware log (M : Int) next).next ctx req
          w.next.next (n * M + (M - 1))).2 = some e := he
      simp [resultOf, he2]
  · intro M hM
    have hinner := inner_nonpositive retries (NewRetryMiddleware log M next) ctx req w.next hM
    have hretry : retryable (httpgrpc.Errorf 500
        ("Query failed after " ++ toString M ++ " retries.")) = true :=
      (retryable_coded _).2 ⟨by simp, by simp⟩
    have hc : callsMade (Handler.outcome (wrapTwice log2 ((n + 1 : Nat) : Int) retries log
        M next).next ctx req w.next)
        (wrapTwice log2 ((n + 1 : Nat) : Int) retries log M next).maxRetries.toNat =
          n + 1 := by
      have hmax : (wrapTwice log2 ((n + 1 : Nat) : Int) retries log
          M next).maxRetries.toNat = n + 1 := Int.toNat_ofNat (n + 1)
      rw [hmax]
      apply callsMade_all (n + 1)
      intro k _
      have hdef : Handler.outcome (wrapTwice log2 ((n + 1 : Nat) : Int) retries log
          M next).next ctx req w.next k =
          Handler.outcome ((NewRetryMiddleware log M next).Do retries) ctx req w.next k := rfl
      rw [hdef, (hinner k).2.2]
      simp only [retryableFailure]
      exact hretry
    have hnext : ((wrapTwice log2 ((n + 1 : Nat) : Int) retries log M next).Do
        retries2 ctx req w).2.next =
        Handler.stateAfter ((NewRetryMiddleware log M next).Do retries) ctx req
          (n + 1) w.next := by
      rw [retry.Do_next, hc]
      rfl
    obtain ⟨hn1, ⟨D, hD, hcalls⟩, hout⟩ := hinner (n + 1)
    refine ⟨hretry, ?_, ?_, ?_, ?_⟩
    · rw [retry.calls_length, hc]
    · rw [hnext, hD, List.drop_left, hcalls]
    · rw [hnext, hn1]
    · rw [retry.Do_result, hc]
      simp only [finalResult]
      have hdef : Handler.outcome (wrapTwice log2 ((n + 1 : Nat) : Int) retries log
          M next).next ctx req w.next n =
          Handler.outcome ((NewRetryMiddleware log M next).Do retries) ctx req w.next n := rfl
      rw [hdef, (hinner n).2.2]
      rfl

/-- Witness of C19: budgets of two inside and two outside around a handler that always
returns 503: the handler is called four times and its 503 is returned. -/
theorem C19_witness :
    (callsOf (((wrapTwice nopLogger 2 nopHistogram nopLogger 2
        (scripted [] (none, some (errCode 503)))).Do nopHistogram () "q"
          emptyOuterWorld).2.next.trace.drop emptyOuterWorld.next.trace.length)).length = 4 ∧
      ((wrapTwice nopLogger 2 nopHistogram nopLogger 2
        (scripted [] (none, some (errCode 503)))).Do nopHistogram () "q" emptyOuterWorld).1 =
          (none, some (errCode 503)) := by
  have hout : ∀ i, Handler.outcome (scripted [] (none, some (errCode 503))) () "q"
      emptyOuterWorld.next.next i = (none, some (errCode 503)) := by
    intro i
    show Handler.outcome (scripted [] (none, some (errCode 503))) () "q" 0 i = _
    rw [outcome_scripted]
    rfl
  obtain ⟨-, hlen, -, e, he, hres⟩ := (C19_retry_amplification nopHistogram nopHistogram
    nopLogger nopLogger (scripted [] (none, some (errCode 503))) () "q" emptyOuterWorld
    2 (by decide)).1 2 (by decide)
    (fun i _ => ⟨errCode 503, by rw [hout i], by decide⟩)
  rw [hout] at he
  have he2 : errCode 503 = e := Option.some.inj he
  subst he2
  exact ⟨hlen, hres⟩

end Claims

end queryrange
